import Mathlib

/-!
Verification development for the FluxFaaS execution substrate.

The Rust sources are shallowly embedded: pure computations become Lean
functions; the stateful methods become explicit state-passing functions;
machine integers become `Nat`/`Int` with explicit reductions modulo `2 ^ w`
where overflow matters (integer overflow is modelled with two's-complement
wrapping, i.e. the release-profile semantics); `f64` fields carrying loads
and response times are modelled as rationals (NaN/infinity inputs are out of
scope except where a panic of the source is explicitly modelled); wall-clock
`Instant`/`DateTime` values are modelled as natural-number timestamps in
milliseconds, threaded through as explicit `now` arguments; fallible
operations return `Except`/`Option`.  `HashMap`s become association lists;
where the source iterates a `HashMap` in its (unspecified) iteration order,
that order is either irrelevant to the claim or made an explicit parameter.
-/

namespace Flux

/-- Reduce modulo `2 ^ 64` (u64 arithmetic). -/
def u64Mod (x : Nat) : Nat := x % 2 ^ 64

/-- 64-bit left rotation, for values `< 2 ^ 64`. -/
def rotl64 (x n : Nat) : Nat := u64Mod (x <<< n) ||| (x >>> (64 - n))

/-- State of the SipHash mixer: four 64-bit lanes. -/
structure SipState where
  v0 : Nat
  v1 : Nat
  v2 : Nat
  v3 : Nat

/-- One SipHash round (`compress!` in Rust's `core::hash::sip`). -/
def sipRound (s : SipState) : SipState :=
  let v0 := u64Mod (s.v0 + s.v1)
  let v1 := rotl64 s.v1 13
  let v1 := v1 ^^^ v0
  let v0 := rotl64 v0 32
  let v2 := u64Mod (s.v2 + s.v3)
  let v3 := rotl64 s.v3 16
  let v3 := v3 ^^^ v2
  let v0 := u64Mod (v0 + v3)
  let v3 := rotl64 v3 21
  let v3 := v3 ^^^ v0
  let v2 := u64Mod (v2 + v1)
  let v1 := rotl64 v1 17
  let v1 := v1 ^^^ v2
  let v2 := rotl64 v2 32
  ⟨v0, v1, v2, v3⟩

/-- Absorb one 8-byte message word (SipHash-1-3 uses a single c-round). -/
def sipAbsorb (s : SipState) (m : Nat) : SipState :=
  let s := { s with v3 := s.v3 ^^^ m }
  let s := sipRound s
  { s with v0 := s.v0 ^^^ m }

/-- Little-endian value of a list of bytes. -/
def leBytes : List Nat → Nat
  | [] => 0
  | b :: rest => b + 256 * leBytes rest

/-- Consume all full 8-byte chunks of the message, returning the final
mixer state and the remaining tail bytes. -/
def sipChunks (s : SipState) : List Nat → SipState × List Nat
  | b0 :: b1 :: b2 :: b3 :: b4 :: b5 :: b6 :: b7 :: rest =>
      sipChunks (sipAbsorb s (leBytes [b0, b1, b2, b3, b4, b5, b6, b7])) rest
  | rest => (s, rest)

/-- SipHash-1-3 with both keys zero, exactly as produced by Rust's
`std::collections::hash_map::DefaultHasher::new()` followed by `finish()`. -/
def sipHash13 (msg : List Nat) : Nat :=
  let s0 : SipState :=
    ⟨0x736f6d6570736575, 0x646f72616e646f6d, 0x6c7967656e657261, 0x7465646279746573⟩
  let (s, tail) := sipChunks s0 msg
  let b := u64Mod (((msg.length % 256) <<< 56) ||| leBytes tail)
  let s := { s with v3 := s.v3 ^^^ b }
  let s := sipRound s
  let s := { s with v0 := s.v0 ^^^ b }
  let s := { s with v2 := s.v2 ^^^ 0xff }
  let s := sipRound (sipRound (sipRound s))
  s.v0 ^^^ s.v1 ^^^ s.v2 ^^^ s.v3

/-- UTF-8 encoding of one character. -/
def utf8EncodeChar (c : Char) : List Nat :=
  let n := c.toNat
  if n < 0x80 then [n]
  else if n < 0x800 then
    [0xC0 ||| (n >>> 6), 0x80 ||| (n &&& 0x3F)]
  else if n < 0x10000 then
    [0xE0 ||| (n >>> 12), 0x80 ||| ((n >>> 6) &&& 0x3F), 0x80 ||| (n &&& 0x3F)]
  else
    [0xF0 ||| (n >>> 18), 0x80 ||| ((n >>> 12) &&& 0x3F),
     0x80 ||| ((n >>> 6) &&& 0x3F), 0x80 ||| (n &&& 0x3F)]

/-- UTF-8 bytes of a string. -/
def utf8Bytes (s : String) : List Nat :=
  s.data.foldr (fun c acc => utf8EncodeChar c ++ acc) []

/-- `Hash for str` feeds the raw bytes followed by a `0xff` terminator byte
into the hasher; `hash_key` in `balancer.rs` then reads `finish()`. -/
def hashStr (s : String) : Nat := sipHash13 (utf8Bytes s ++ [0xff])

/-! ### Association-list operations standing for `HashMap` -/

/-- `HashMap::get`. -/
def lookupA {α : Type} : List (String × α) → String → Option α
  | [], _ => none
  | (k', v) :: rest, k => if k' = k then some v else lookupA rest k

/-- Replace the value stored at an existing key (`HashMap::get_mut` followed
by assignment); a missing key leaves the map unchanged. -/
def alistUpdate {α : Type} : List (String × α) → String → α → List (String × α)
  | [], _, _ => []
  | (k', v') :: rest, k, v =>
      if k' = k then (k', v) :: rest else (k', v') :: alistUpdate rest k v

/-- `HashMap::insert`: overwrite an existing entry or add a new one. -/
def alistInsert {α : Type} : List (String × α) → String → α → List (String × α)
  | [], k, v => [(k, v)]
  | (k', v') :: rest, k, v =>
      if k' = k then (k', v) :: rest else (k', v') :: alistInsert rest k v

/-- `HashMap::remove` (map keys are unique, so removing the first match). -/
def alistErase {α : Type} : List (String × α) → String → List (String × α)
  | [], _ => []
  | (k', v') :: rest, k => if k' = k then rest else (k', v') :: alistErase rest k

/-! ### i32 wrapping arithmetic -/

/-- `i32::MIN`. -/
def i32Min : Int := -(2 ^ 31)

/-- Reduce an integer into the i32 range by two's-complement wrapping. -/
def i32wrap (x : Int) : Int := (x + 2 ^ 31) % 2 ^ 32 - 2 ^ 31

/-- `u32 as i32` (bit reinterpretation). -/
def i32OfU32 (n : Nat) : Int := i32wrap n

/-! ### Load balancer data model (`src/scheduler/balancer.rs`) -/

/-- Circuit breaker state of one target. -/
inductive CircuitBreakerState
  | Closed
  | Open
  | HalfOpen
deriving DecidableEq

/-- Per-target performance statistics (`PerformanceStats`).  `last_updated`
is an `Instant` (milliseconds). -/
structure PerformanceStats where
  total_requests : Nat
  successful_requests : Nat
  failed_requests : Nat
  total_response_time_ms : Nat
  min_response_time_ms : Nat
  max_response_time_ms : Nat
  last_updated : Nat
deriving DecidableEq

/-- One load-balance target (`LoadBalanceTarget`).  `f64` fields are
rationals; `last_activity` is an `Instant` in milliseconds. -/
structure LoadBalanceTarget where
  id : String
  name : String
  weight : Nat
  current_load : ℚ
  active_connections : Nat
  avg_response_time_ms : ℚ
  is_healthy : Bool
  last_activity : Nat
  consecutive_failures : Nat
  consecutive_successes : Nat
  circuit_breaker_state : CircuitBreakerState
  performance_stats : PerformanceStats
deriving DecidableEq

/-- The ten balancing strategies. -/
inductive LoadBalanceStrategy
  | RoundRobin
  | WeightedRoundRobin
  | Random
  | WeightedRandom
  | LeastConnections
  | WeightedLeastConnections
  | LeastLoad
  | FastestResponse
  | ConsistentHash
  | Adaptive
deriving DecidableEq

/-- `{:?}` rendering of a strategy, used in the selection reason. -/
def strategyName : LoadBalanceStrategy → String
  | .RoundRobin => "RoundRobin"
  | .WeightedRoundRobin => "WeightedRoundRobin"
  | .Random => "Random"
  | .WeightedRandom => "WeightedRandom"
  | .LeastConnections => "LeastConnections"
  | .WeightedLeastConnections => "WeightedLeastConnections"
  | .LeastLoad => "LeastLoad"
  | .FastestResponse => "FastestResponse"
  | .ConsistentHash => "ConsistentHash"
  | .Adaptive => "Adaptive"

/-- `HealthCheckConfig`. -/
structure HealthCheckConfig where
  interval_secs : Nat
  timeout_secs : Nat
  failure_threshold : Nat
  success_threshold : Nat
  enabled : Bool

/-- `WeightConfig`. -/
structure WeightConfig where
  default_weight : Nat
  min_weight : Nat
  max_weight : Nat
  adjustment_factor : ℚ
  dynamic_adjustment : Bool

/-- `FailoverConfig`. -/
structure FailoverConfig where
  max_retries : Nat
  retry_interval_ms : Nat
  circuit_breaker_threshold : ℚ
  circuit_breaker_recovery_secs : Nat
  failure_threshold : Nat
  success_threshold : Nat
  enabled : Bool

/-- `MonitoringConfig`. -/
structure MonitoringConfig where
  window_size_secs : Nat
  sampling_interval_ms : Nat
  enabled : Bool

/-- `LoadBalancerConfig`. -/
structure LoadBalancerConfig where
  strategy : LoadBalanceStrategy
  health_check : HealthCheckConfig
  weight_config : WeightConfig
  failover_config : FailoverConfig
  monitoring_config : MonitoringConfig

/-- `LoadBalancerState`: the mutable selection bookkeeping. -/
structure LoadBalancerState where
  round_robin_counter : Nat
  weighted_round_robin_weights : List (String × Int)
  random_seed : Nat
  consistent_hash_ring : List (Nat × String)
  adaptive_weights : List (String × ℚ)

/-- `LoadBalanceResult`. `selection_time_us` is a wall-clock measurement
abstracted to `0`. -/
structure LoadBalanceResult where
  target_id : String
  reason : String
  load_snapshot : List (String × ℚ)
  selection_time_us : Nat
deriving DecidableEq

/-- Outcome of `select_target`: an `Ok(LoadBalanceResult)`, an `anyhow`
error, or a Rust panic (e.g. a division by zero). -/
inductive SelectOutcome
  | ok (r : LoadBalanceResult)
  | err (msg : String)
  | panicked
deriving DecidableEq

/-! ### Target status update and circuit breaker (`update_target_status`) -/

/-- The field and statistics updates performed by `update_target_status`
(lines 347-363) on the resolved target, before the breaker re-evaluation. -/
def update_target_fields (now : Nat) (is_healthy : Bool) (load : ℚ)
    (connections : Nat) (response_time_ms : ℚ) (t : LoadBalanceTarget) :
    LoadBalanceTarget :=
  let t := { t with
    is_healthy := is_healthy
    current_load := load
    active_connections := connections
    avg_response_time_ms := response_time_ms
    last_activity := now }
  let ps := { t.performance_stats with
    total_requests := t.performance_stats.total_requests + 1 }
  if is_healthy then
    { t with
      performance_stats :=
        { ps with successful_requests := ps.successful_requests + 1 }
      consecutive_successes := t.consecutive_successes + 1
      consecutive_failures := 0 }
  else
    { t with
      performance_stats := { ps with failed_requests := ps.failed_requests + 1 }
      consecutive_failures := t.consecutive_failures + 1
      consecutive_successes := 0 }

/-- `update_circuit_breaker_state`.  In the `Open` arm the source compares
`target.last_activity.elapsed() > Duration::from_secs(recovery)`;
`elapsed()` here is `now - last_activity` in milliseconds (the two reads of
the clock inside one `update_target_status` call are identified, which is
exact at any recovery time of one second or more). -/
def update_circuit_breaker_state (cfg : LoadBalancerConfig) (now : Nat)
    (t : LoadBalanceTarget) : LoadBalanceTarget :=
  match t.circuit_breaker_state with
  | .Closed =>
      if cfg.failover_config.failure_threshold ≤ t.consecutive_failures then
        { t with circuit_breaker_state := .Open }
      else t
  | .Open =>
      if cfg.failover_config.circuit_breaker_recovery_secs * 1000 <
          now - t.last_activity then
        { t with circuit_breaker_state := .HalfOpen }
      else t
  | .HalfOpen =>
      if cfg.failover_config.success_threshold ≤ t.consecutive_successes then
        { t with circuit_breaker_state := .Closed }
      else if 0 < t.consecutive_failures then
        { t with circuit_breaker_state := .Open }
      else t

/-- The whole mutation `update_target_status` performs on the target it
resolved: field/statistics update followed by the breaker re-evaluation. -/
def update_target_once (cfg : LoadBalancerConfig) (now : Nat)
    (is_healthy : Bool) (load : ℚ) (connections : Nat)
    (response_time_ms : ℚ) (t : LoadBalanceTarget) : LoadBalanceTarget :=
  update_circuit_breaker_state cfg now
    (update_target_fields now is_healthy load connections response_time_ms t)

/-- `update_target_status`: returns the `Result` together with the target
map after the call (unchanged when the id is unknown). -/
def update_target_status (cfg : LoadBalancerConfig)
    (targets : List (String × LoadBalanceTarget)) (target_id : String)
    (is_healthy : Bool) (load : ℚ) (connections : Nat)
    (response_time_ms : ℚ) (now : Nat) :
    Except String Unit × List (String × LoadBalanceTarget) :=
  match lookupA targets target_id with
  | some t =>
      (.ok (), alistUpdate targets target_id
        (update_target_once cfg now is_healthy load connections
          response_time_ms t))
  | none => (.error ("Target not found: " ++ target_id), targets)

/-! ### Selection strategies -/

/-- A target is eligible for routing iff it is healthy and its breaker is
closed (the filter in `select_target`). -/
def eligible (t : LoadBalanceTarget) : Bool :=
  t.is_healthy && decide (t.circuit_breaker_state = CircuitBreakerState.Closed)

/-- One step of the linear congruential generator used by the random
strategies (u64 wrapping multiply/add, masked to 31 bits). -/
def lcgNext (seed : Nat) : Nat :=
  (u64Mod (u64Mod (seed * 1103515245) + 12345)) &&& 0x7fffffff

/-- `select_round_robin`.  `none` stands for a Rust panic; the `% 0` case is
unreachable because `select_target` only dispatches on a nonempty list. -/
def select_round_robin (ts : List (String × LoadBalanceTarget))
    (st : LoadBalancerState) : Option String × LoadBalancerState :=
  if ts.length = 0 then (none, st)
  else
    ((ts.get? (st.round_robin_counter % ts.length)).map Prod.fst,
     { st with round_robin_counter := (st.round_robin_counter + 1) % ts.length })

/-- First phase of `select_weighted_round_robin`: for every target,
`entry(id).or_insert(-(weight as i32))`. -/
def wrrInit (m : List (String × Int)) :
    List (String × LoadBalanceTarget) → List (String × Int)
  | [] => m
  | p :: rest =>
      wrrInit
        (if (lookupA m p.1).isSome then m
         else m ++ [(p.1, i32wrap (-(i32OfU32 p.2.weight)))]) rest

/-- Second phase of `select_weighted_round_robin`: add each weight to its
current score, track the running total, and remember the strict maximum. -/
def wrrGo (m : List (String × Int)) (total maxW : Int) (selected : String) :
    List (String × LoadBalanceTarget) → List (String × Int) × Int × Int × String
  | [] => (m, total, maxW, selected)
  | p :: rest =>
      let cw := i32wrap ((lookupA m p.1).getD 0 + i32OfU32 p.2.weight)
      let m' := alistUpdate m p.1 cw
      let total' := i32wrap (total + i32OfU32 p.2.weight)
      if maxW < cw then wrrGo m' total' cw p.1 rest
      else wrrGo m' total' maxW selected rest

/-- `select_weighted_round_robin` (smooth weighted round-robin). -/
def select_weighted_round_robin (ts : List (String × LoadBalanceTarget))
    (st : LoadBalancerState) : Option String × LoadBalancerState :=
  let m0 := wrrInit st.weighted_round_robin_weights ts
  let r := wrrGo m0 0 i32Min "" ts
  let m1 := r.1
  let total := r.2.1
  let selected := r.2.2.2
  let m2 :=
    match lookupA m1 selected with
    | some w => alistUpdate m1 selected (i32wrap (w - total))
    | none => m1
  (some selected, { st with weighted_round_robin_weights := m2 })

/-- `select_random`. -/
def select_random (ts : List (String × LoadBalanceTarget))
    (st : LoadBalancerState) : Option String × LoadBalancerState :=
  if ts.length = 0 then (none, st)
  else
    ((ts.get? (lcgNext st.random_seed % ts.length)).map Prod.fst,
     { st with random_seed := lcgNext st.random_seed })

/-- The cumulative-weight walk inside `select_weighted_random`. -/
def wrPick (rw : Nat) : List (String × LoadBalanceTarget) → Option String
  | [] => none
  | p :: rest => if rw < p.2.weight then some p.1 else wrPick (rw - p.2.weight) rest

/-- `select_weighted_random`.  When the total weight is zero the source
computes `random_weight % 0`, which panics (`none`); the seed was already
advanced under the state lock before the panic. -/
def select_weighted_random (ts : List (String × LoadBalanceTarget))
    (st : LoadBalancerState) : Option String × LoadBalancerState :=
  if (ts.foldl (fun acc p => acc + p.2.weight) 0) % 2 ^ 32 = 0 then
    (none, { st with random_seed := lcgNext st.random_seed })
  else
    match wrPick (lcgNext st.random_seed %
        ((ts.foldl (fun acc p => acc + p.2.weight) 0) % 2 ^ 32)) ts with
    | some id => (some id, { st with random_seed := lcgNext st.random_seed })
    | none => ((ts.get? 0).map Prod.fst,
               { st with random_seed := lcgNext st.random_seed })

/-- `Iterator::min_by_key` / `min_by` keep the first minimum: fold replacing
the accumulator only on a strictly smaller key. -/
def minByNatKey {α : Type} (key : α → Nat) : List α → Option α
  | [] => none
  | x :: rest =>
      some (rest.foldl (fun acc y => if key y < key acc then y else acc) x)

/-- Same, for rational keys (`partial_cmp().unwrap()` on values that are
never NaN in this model). -/
def minByRatKey {α : Type} (key : α → ℚ) : List α → Option α
  | [] => none
  | x :: rest =>
      some (rest.foldl (fun acc y => if key y < key acc then y else acc) x)

/-- `select_least_connections`. -/
def select_least_connections (ts : List (String × LoadBalanceTarget)) :
    Option String :=
  (minByNatKey (fun p => p.2.active_connections) ts).map Prod.fst

/-- Total comparison of two rationals. -/
def qcmp (a b : ℚ) : Ordering :=
  if a < b then .lt else if b < a then .gt else .eq

/-- `partial_cmp` of the two `active_connections / weight` f64 ratios in
`select_weighted_least_connections`.  With a zero weight the ratio is NaN
(zero connections, making the comparison `None`) or `+inf` (positive
connections); otherwise it is the finite rational. -/
def wlcCmp (a b : LoadBalanceTarget) : Option Ordering :=
  if (a.weight = 0 ∧ a.active_connections = 0) ∨
     (b.weight = 0 ∧ b.active_connections = 0) then none
  else if a.weight = 0 then
    if b.weight = 0 then some .eq else some .gt
  else if b.weight = 0 then some .lt
  else some (qcmp ((a.active_connections : ℚ) / (a.weight : ℚ))
                  ((b.active_connections : ℚ) / (b.weight : ℚ)))

/-- The `min_by` fold of `select_weighted_least_connections`; `none` is the
panic of `partial_cmp().unwrap()` on a NaN ratio. -/
def wlcGo (acc : String × LoadBalanceTarget) :
    List (String × LoadBalanceTarget) → Option String
  | [] => some acc.1
  | y :: rest =>
      match wlcCmp acc.2 y.2 with
      | none => none
      | some .gt => wlcGo y rest
      | some _ => wlcGo acc rest

/-- `select_weighted_least_connections`. -/
def select_weighted_least_connections :
    List (String × LoadBalanceTarget) → Option String
  | [] => none
  | x :: rest => wlcGo x rest

/-- `select_least_load`. -/
def select_least_load (ts : List (String × LoadBalanceTarget)) : Option String :=
  (minByRatKey (fun p => p.2.current_load) ts).map Prod.fst

/-- `select_fastest_response`. -/
def select_fastest_response (ts : List (String × LoadBalanceTarget)) :
    Option String :=
  (minByRatKey (fun p => p.2.avg_response_time_ms) ts).map Prod.fst

/-- `hash_key`: a fresh `DefaultHasher` over the string. -/
def hash_key (key : String) : Nat := hashStr key

/-- The ring walk of `select_consistent_hash`: first entry whose ring hash
is at least the key hash. -/
def ringFind (hash : Nat) : List (Nat × String) → Option String
  | [] => none
  | (rh, id) :: rest => if hash ≤ rh then some id else ringFind hash rest

/-- `select_consistent_hash`.  Falls back to the first ring entry, then to
`targets[0]` of the (healthy) slice. -/
def select_consistent_hash (ts : List (String × LoadBalanceTarget))
    (st : LoadBalancerState) (request_key : Option String) : Option String :=
  match ringFind (hash_key (request_key.getD "default"))
      st.consistent_hash_ring with
  | some id => some id
  | none =>
      match st.consistent_hash_ring with
      | (_, id) :: _ => some id
      | [] => ts.head?.map Prod.fst

/-- The per-target score of `select_adaptive`:
`adaptive_weight / (load.max(0.1) * response_time.max(1.0) * connections.max(1.0))`. -/
def adaptiveScore (weights : List (String × ℚ)) (p : String × LoadBalanceTarget) : ℚ :=
  (lookupA weights p.1).getD 1 /
    (max p.2.current_load (1 / 10) * max p.2.avg_response_time_ms 1 *
     max (p.2.active_connections : ℚ) 1)

/-- The scoring fold of `select_adaptive`.  `none` as the best-score
accumulator is the `f64::MIN` sentinel, which every first score exceeds. -/
def adaptiveGo (weights : List (String × ℚ)) (best : String)
    (bestScore : Option ℚ) : List (String × LoadBalanceTarget) → String
  | [] => best
  | p :: rest =>
      match bestScore with
      | none => adaptiveGo weights p.1 (some (adaptiveScore weights p)) rest
      | some bs =>
          if bs < adaptiveScore weights p then
            adaptiveGo weights p.1 (some (adaptiveScore weights p)) rest
          else adaptiveGo weights best bestScore rest

/-- `select_adaptive`. -/
def select_adaptive (ts : List (String × LoadBalanceTarget))
    (st : LoadBalancerState) : Option String :=
  match ts with
  | [] => none
  | p :: _ => some (adaptiveGo st.adaptive_weights p.1 none ts)

/-- `update_consistent_hash_ring`: rebuild the ring with `3 * weight`
virtual nodes per target (at least 3, at most 300), sorted by hash.  The
stable `sort_by_key` is modelled by insertion sort. -/
def update_consistent_hash_ring (targets : List (String × LoadBalanceTarget))
    (st : LoadBalancerState) : LoadBalancerState :=
  let ring := targets.foldl
    (fun acc p =>
      let virtual_nodes := min (max p.2.weight 1 * 3) 300
      acc ++ (List.range virtual_nodes).map
        (fun i => (hash_key (p.1 ++ ":" ++ toString i), p.1))) []
  { st with
    consistent_hash_ring := List.insertionSort (fun a b => a.1 ≤ b.1) ring }

/-- The strategy dispatch of `select_target` (its inner `match` over
`self.config.strategy`), applied to the filtered healthy slice. -/
def dispatch_strategy (cfg : LoadBalancerConfig)
    (healthy_targets : List (String × LoadBalanceTarget))
    (st : LoadBalancerState) (request_key : Option String) :
    Option String × LoadBalancerState :=
  match cfg.strategy with
  | .RoundRobin => select_round_robin healthy_targets st
  | .WeightedRoundRobin => select_weighted_round_robin healthy_targets st
  | .Random => select_random healthy_targets st
  | .WeightedRandom => select_weighted_random healthy_targets st
  | .LeastConnections => (select_least_connections healthy_targets, st)
  | .WeightedLeastConnections =>
      (select_weighted_least_connections healthy_targets, st)
  | .LeastLoad => (select_least_load healthy_targets, st)
  | .FastestResponse => (select_fastest_response healthy_targets, st)
  | .ConsistentHash =>
      (select_consistent_hash healthy_targets st request_key, st)
  | .Adaptive => (select_adaptive healthy_targets st, st)

/-- `select_target`: the eligibility filter followed by the strategy
dispatch.  The returned state reflects the bookkeeping done by the
strategy. -/
def select_target (cfg : LoadBalancerConfig)
    (targets : List (String × LoadBalanceTarget)) (st : LoadBalancerState)
    (request_key : Option String) : SelectOutcome × LoadBalancerState :=
  if targets.isEmpty then (.err "No targets available", st)
  else
    if (targets.filter (fun p => eligible p.2)).isEmpty then
      (.err "No healthy targets available", st)
    else
      match dispatch_strategy cfg (targets.filter (fun p => eligible p.2)) st
          request_key with
      | (none, st1) => (.panicked, st1)
      | (some id, st1) =>
          (.ok { target_id := id
                 reason := "Selected by " ++ strategyName cfg.strategy ++ " strategy"
                 load_snapshot := (targets.filter (fun p => eligible p.2)).map
                   (fun p => (p.1, p.2.current_load))
                 selection_time_us := 0 }, st1)

/-! ### Function metadata (`src/functions/mod.rs`) -/

/-- `ScriptType`. -/
inductive ScriptType
  | Rust
  | Python
  | JavaScript
  | TypeScript
deriving DecidableEq

/-- `ExecutionStatus`. -/
inductive ExecutionStatus
  | Success
  | Completed
  | Error (msg : String)
  | Failed
  | Timeout
deriving DecidableEq

/-- `FunctionMetadata`.  The `scru128` id, the `chrono` timestamps and the
declared parameter/return metadata are only carried around by the embedded
code, never read; they are represented by plain naturals/strings. -/
structure FunctionMetadata where
  id : Nat
  name : String
  description : String
  code : String
  created_at : Nat
  updated_at : Nat
  timeout_ms : Nat
  version : String
  dependencies : List String
  script_type : ScriptType
deriving DecidableEq

/-- A `serde_json::Value` as far as the embedded pipeline inspects it: the
error/result wrapper objects it builds, or a raw JSON document carried
through from a child's stdout. -/
inductive JsonOut
  | errorObj (msg : String)
  | resultObj (raw : String)
  | parsedJson (raw : String)
deriving DecidableEq

/-- `InvokeRequest` (the input JSON, carried opaquely). -/
structure InvokeRequest where
  input : String
deriving DecidableEq

/-- `InvokeResponse`. -/
structure InvokeResponse where
  output : JsonOut
  execution_time_ms : Nat
  status : ExecutionStatus
deriving DecidableEq

/-! ### Compiler and artifact cache (`src/runtime/compiler.rs`) -/

/-- `CompilerConfig`.  Paths are strings. -/
structure CompilerConfig where
  rustc_path : Option String
  opt_level : Nat
  debug_info : Bool
  compile_timeout_secs : Nat
  cache_dir : String
  max_cache_entries : Nat
  rust_target_dir : Option String

/-- `CompiledFunction`. -/
structure CompiledFunction where
  metadata : FunctionMetadata
  library_path : String
  compiled_at : Nat
  source_hash : String
  compile_time_ms : Nat
deriving DecidableEq

/-- Compiler state: the memo map plus the set of filesystem paths that
exist (`Path::exists`). -/
structure CompilerState where
  compiled_functions : List (String × CompiledFunction)
  disk : List String
deriving DecidableEq

/-- `Path::extension` for the well-formed file paths the pipeline builds:
the suffix of the file name after its last dot. -/
def pathExtension (p : String) : Option String :=
  let name := ((p.splitOn "/").getLastD "")
  let parts := name.splitOn "."
  if 2 ≤ parts.length ∧ parts.headD "" ≠ "" then some (parts.getLastD "")
  else none

/-- `get_cached_function`: a memo entry for the name whose hash matches and
whose library file still exists.  The trailing disk-cache probe of the
source returns `None` in both of its arms. -/
def get_cached_function (st : CompilerState) (function_name source_hash : String) :
    Option CompiledFunction :=
  match lookupA st.compiled_functions function_name with
  | some compiled =>
      if compiled.source_hash = source_hash ∧ compiled.library_path ∈ st.disk then
        some compiled
      else none
  | none => none

/-- `cache_compiled_function`: insert, then, if the memo exceeds
`max_cache_entries`, remove the key yielded first by the `HashMap`'s
(unspecified) iteration order — supplied here as the explicit `keyChoice`
oracle. -/
def cache_compiled_function (cfg : CompilerConfig)
    (keyChoice : List (String × CompiledFunction) → Option String)
    (memo : List (String × CompiledFunction)) (function_name : String)
    (compiled : CompiledFunction) : List (String × CompiledFunction) :=
  let m := alistInsert memo function_name compiled
  if cfg.max_cache_entries < m.length then
    match keyChoice m with
    | some oldest_key => alistErase m oldest_key
    | none => m
  else m

/-- `cache_library`: the deterministic cache path
`{cache_dir}/{name}_{hash}.{ext}`. -/
def cache_library (cfg : CompilerConfig) (function_name source_hash : String)
    (library_path : String) : String :=
  cfg.cache_dir ++ "/" ++ function_name ++ "_" ++ source_hash ++ "." ++
    ((pathExtension library_path).getD "so")

/-- `compile_function`.  `md5hex` abstracts the `md5` crate's digest (an
external collaborator: any fixed function of the source bytes); the
toolchain invocation `compile_to_dylib` is injected as `buildResult` (the
path of the produced library, or the compile error).  On success the result
carries a flag that is `true` exactly when the memoized artifact was reused
without recompiling. -/
def compile_function (md5hex : String → String) (cfg : CompilerConfig)
    (keyChoice : List (String × CompiledFunction) → Option String)
    (st : CompilerState) (function : FunctionMetadata)
    (buildResult : Except String String) (now compileMs : Nat) :
    Except String (CompiledFunction × Bool × CompilerState) :=
  let source_hash := md5hex function.code
  match get_cached_function st function.name source_hash with
  | some cached => .ok (cached, true, st)
  | none =>
      match buildResult with
      | .error e => .error e
      | .ok library_path =>
          let cached_library_path :=
            cache_library cfg function.name source_hash library_path
          let compiled : CompiledFunction :=
            { metadata := function
              library_path := cached_library_path
              compiled_at := now
              source_hash := source_hash
              compile_time_ms := compileMs }
          let memo' := cache_compiled_function cfg keyChoice
            st.compiled_functions function.name compiled
          .ok (compiled, false,
               { compiled_functions := memo'
                 disk := cached_library_path :: st.disk })

/-! ### Sandbox executor (`src/runtime/sandbox.rs`) -/

/-- `SandboxConfig`. -/
structure SandboxConfig where
  enable_process_isolation : Bool
  enable_container_isolation : Bool
  execution_timeout_secs : Nat
  max_memory_mb : Nat
  max_cpu_percent : ℚ
  allow_network : Bool
  allow_filesystem : Bool
  allowed_dirs : List String
  work_dir : Option String
  allowed_env_vars : List String
  temp_root : String
  rust_target_dir : Option String

/-- `SandboxConfig::default()`. -/
def SandboxConfig.default : SandboxConfig :=
  { enable_process_isolation := true
    enable_container_isolation := false
    execution_timeout_secs := 30
    max_memory_mb := 128
    max_cpu_percent := 50
    allow_network := false
    allow_filesystem := false
    allowed_dirs := []
    work_dir := none
    allowed_env_vars := ["PATH"]
    temp_root := "/tmp/flux_sandbox"
    rust_target_dir := none }

/-- `SandboxResult`. -/
structure SandboxResult where
  status : ExecutionStatus
  output : JsonOut
  execution_time_ms : Nat
  peak_memory_bytes : Nat
  cpu_usage_percent : ℚ
  exit_code : Option Int
  stdout : String
  stderr : String
deriving DecidableEq

/-- The observable behaviour of the spawned child process: how long it runs
(wall clock, ms), how it exits, what it writes, whether its stdout parses
as JSON, and the resource peaks the monitor sampled. -/
structure ChildRun where
  runMs : Nat
  exitSuccess : Bool
  exitCode : Option Int
  stdout : String
  stderrOut : String
  stdoutIsJson : Bool
  peakMemory : Nat
  cpuUsage : ℚ
deriving DecidableEq

/-- `monitor_process_execution` after the child finished on its own:
status from the exit status, output parsed from stdout (falling back to a
`result` wrapper), stderr wrapped in an `error` object otherwise. -/
def monitor_process_execution (child : ChildRun) : SandboxResult :=
  { status := if child.exitSuccess then .Completed else .Failed
    output :=
      if child.exitSuccess ∧ child.stdout.trim ≠ "" then
        if child.stdoutIsJson then .parsedJson child.stdout
        else .resultObj child.stdout.trim
      else .errorObj child.stderrOut.trim
    execution_time_ms := child.runMs
    peak_memory_bytes := child.peakMemory
    cpu_usage_percent := child.cpuUsage
    exit_code := child.exitCode
    stdout := child.stdout
    stderr := child.stderrOut }

/-- `execute_in_process`.  The wall-clock deadline is
`Duration::from_secs(config.execution_timeout_secs)`; on expiry the child
is force-killed (SIGTERM, grace, SIGKILL) and the fixed timeout record is
returned.  The second component records whether `kill_process` was
invoked.  The record's `execution_time_ms` is the elapsed time at the
deadline. -/
def execute_in_process (cfg : SandboxConfig) (child : ChildRun) :
    SandboxResult × Bool :=
  let timeout_ms := cfg.execution_timeout_secs * 1000
  if timeout_ms < child.runMs then
    ({ status := .Failed
       output := .errorObj "Execution timeout"
       execution_time_ms := timeout_ms
       peak_memory_bytes := 0
       cpu_usage_percent := 0
       exit_code := some (-1)
       stdout := ""
       stderr := "Execution timeout" }, true)
  else (monitor_process_execution child, false)

/-- `execute_in_sandbox`: container isolation falls back to process
isolation; with neither enabled the call fails. -/
def execute_in_sandbox (cfg : SandboxConfig) (child : ChildRun) :
    Except String (SandboxResult × Bool) :=
  if cfg.enable_container_isolation then .ok (execute_in_process cfg child)
  else if cfg.enable_process_isolation then .ok (execute_in_process cfg child)
  else .error "No isolation method enabled"

/-! ### Resource monitor summary (`src/runtime/resource.rs`) -/

/-- `ResourceUsage` (per resource kind; the kind itself is the map key). -/
structure ResourceUsage where
  resource_type : String
  current_usage : Nat
  peak_usage : Nat
  average_usage : ℚ
  last_updated : Nat
  is_exceeded : Bool
deriving DecidableEq

/-- `ResourceSummary`. -/
structure ResourceSummary where
  process_id : Nat
  function_name : String
  total_duration_ms : Nat
  resource_usage : List (String × ResourceUsage)
  quota_name : String
  monitoring_ended_at : Nat
deriving DecidableEq

/-! ### Instance manager (`src/runtime/instance.rs`) -/

/-- `InstanceState`. -/
inductive InstanceState
  | Creating
  | Warming
  | Ready
  | Running
  | Idle
  | Paused
  | Stopping
  | Stopped
  | Error (msg : String)
deriving DecidableEq

/-- `InstanceConfig`. -/
structure InstanceConfig where
  max_idle_duration_secs : Nat
  warm_timeout_secs : Nat
  max_execution_duration_secs : Nat
  enable_auto_warm : Bool
  warm_concurrency : Nat
  resource_quota_name : Option String
  labels : List (String × String)
deriving DecidableEq

/-- `InstanceExecutionStats`. -/
structure InstanceExecutionStats where
  total_executions : Nat
  successful_executions : Nat
  failed_executions : Nat
  avg_execution_time_ms : ℚ
  max_execution_time_ms : Nat
  min_execution_time_ms : Nat
  last_execution_time : Option Nat
  total_cpu_time_ms : Nat
  peak_memory_bytes : Nat
deriving DecidableEq

/-- `FunctionInstance`. -/
structure FunctionInstance where
  instance_id : String
  function_name : String
  function_metadata : FunctionMetadata
  compiled_function : Option CompiledFunction
  state : InstanceState
  config : InstanceConfig
  created_at : Nat
  last_activity : Nat
  execution_stats : InstanceExecutionStats
  process_id : Option Nat
  version : Nat
deriving DecidableEq

/-- The statistics fold of `update_execution_stats` over the resource
summary's usage map: raise the running peak when an entry's peak is
strictly larger. -/
def foldPeakMemory (start : Nat) (usage : List (String × ResourceUsage)) : Nat :=
  usage.foldl (fun acc p => if acc < p.2.peak_usage then p.2.peak_usage else acc)
    start

/-- `update_execution_stats`: mutate the map entry's counters; a missing id
is ignored. -/
def update_execution_stats (instances : List (String × FunctionInstance))
    (instance_id : String) (sandbox_result : SandboxResult)
    (execution_time_ms : Nat) (resource_summary : Option ResourceSummary)
    (now : Nat) : List (String × FunctionInstance) :=
  match lookupA instances instance_id with
  | none => instances
  | some inst =>
      let s0 := inst.execution_stats
      let s1 := { s0 with
        total_executions := s0.total_executions + 1
        last_execution_time := some now }
      let s2 :=
        if sandbox_result.status = .Success ∨ sandbox_result.status = .Completed
        then { s1 with successful_executions := s1.successful_executions + 1 }
        else { s1 with failed_executions := s1.failed_executions + 1 }
      let s3 :=
        if s2.min_execution_time_ms = 0 ∨
           execution_time_ms < s2.min_execution_time_ms then
          { s2 with min_execution_time_ms := execution_time_ms }
        else s2
      let s4 :=
        if s3.max_execution_time_ms < execution_time_ms then
          { s3 with max_execution_time_ms := execution_time_ms }
        else s3
      let s5 := { s4 with
        avg_execution_time_ms :=
          (s4.avg_execution_time_ms * ((s4.total_executions : ℚ) - 1) +
            (execution_time_ms : ℚ)) / (s4.total_executions : ℚ) }
      let s6 :=
        match resource_summary with
        | none => s5
        | some rs =>
            { s5 with
              total_cpu_time_ms := s5.total_cpu_time_ms + rs.total_duration_ms
              peak_memory_bytes :=
                foldPeakMemory s5.peak_memory_bytes rs.resource_usage }
      alistUpdate instances instance_id { inst with execution_stats := s6 }

/-- The `Running` transition taken at the start of `execute_instance`
(state to `Running`, `last_activity` refreshed). -/
def markRunning (inst : FunctionInstance) (now : Nat) : FunctionInstance :=
  { inst with state := .Running, last_activity := now }

/-- `execute_instance`.  The sandbox call is injected as `sandboxRun` (only
consulted when the instance holds a compiled function); resource-monitor
start/stop talk to the external `ResourceManager`, whose summary is the
`resource_summary` argument.  Lifecycle-event emission appends to the
write-only audit vector and is not modelled.  Returns the `InvokeResponse`
together with the instance map after the call.  Note that the final
`update_instance` inserts the clone taken before the execution (with state
forced to `Idle`), as in the source. -/
def execute_instance (instances : List (String × FunctionInstance))
    (instance_id : String) (sandboxRun : Except String SandboxResult)
    (execution_time_ms : Nat) (resource_summary : Option ResourceSummary)
    (now : Nat) :
    Except String (InvokeResponse × List (String × FunctionInstance)) :=
  match lookupA instances instance_id with
  | none => .error ("Instance not found: " ++ instance_id)
  | some inst =>
      if ¬(inst.state = .Ready ∨ inst.state = .Idle) then
        .error ("Instance " ++ instance_id ++ " is not ready for execution")
      else
        let instRunning := markRunning inst now
        let m1 := alistUpdate instances instance_id instRunning
        let execution_result : Except String SandboxResult :=
          match inst.compiled_function with
          | some _ => sandboxRun
          | none => .error "Function not compiled"
        match execution_result with
        | .ok sandbox_result =>
            let m2 := update_execution_stats m1 instance_id sandbox_result
              execution_time_ms resource_summary now
            let response : InvokeResponse :=
              { output := sandbox_result.output
                execution_time_ms := sandbox_result.execution_time_ms
                status := sandbox_result.status }
            let instFinal := { instRunning with state := .Idle, last_activity := now }
            .ok (response, alistUpdate m2 instance_id instFinal)
        | .error e =>
            let response : InvokeResponse :=
              { output := .errorObj e
                execution_time_ms := execution_time_ms
                status := .Failed }
            let instFinal := { instRunning with state := .Idle, last_activity := now }
            .ok (response, alistUpdate m1 instance_id instFinal)

/-! ### Pool and auto-scaler (`src/scheduler/pool.rs`) -/

/-- `pool.rs`'s own (smaller) strategy enum. -/
inductive PoolStrategy
  | RoundRobin
  | Random
  | LeastConnections
  | LeastLoad
  | FastestResponse
deriving DecidableEq

/-- `PoolConfig`. -/
structure PoolConfig where
  min_instances : Nat
  max_instances : Nat
  target_instances : Nat
  scale_up_threshold : ℚ
  scale_down_threshold : ℚ
  scale_up_cooldown_secs : Nat
  scale_down_cooldown_secs : Nat
  warm_new_instances : Bool
  health_check_interval_secs : Nat
  load_balance_strategy : PoolStrategy
  instance_config : InstanceConfig

/-- `PoolInstance`. -/
structure PoolInstance where
  instance_id : String
  current_load : ℚ
  active_connections : Nat
  last_activity : Nat
  avg_response_time_ms : ℚ
  is_healthy : Bool
  created_at : Nat
deriving DecidableEq

/-- u32 wrapping subtraction (release-profile semantics), for `a < 2 ^ 32`. -/
def u32sub (a b : Nat) : Nat := (a + 2 ^ 32 - b % 2 ^ 32) % 2 ^ 32

/-- The comparator of `scale_down`'s `sort_by`: ascending `current_load`. -/
def loadLE (a b : String × PoolInstance) : Prop :=
  a.2.current_load ≤ b.2.current_load

instance : DecidableRel loadLE :=
  fun a b => inferInstanceAs (Decidable (a.2.current_load ≤ b.2.current_load))

instance : IsTotal (String × PoolInstance) loadLE :=
  ⟨fun a b => le_total a.2.current_load b.2.current_load⟩

instance : IsTrans (String × PoolInstance) loadLE :=
  ⟨fun _ _ _ h1 h2 => le_trans h1 h2⟩

/-- The `sort_by` of `scale_down`: instances ordered by ascending
`current_load` (stable sort, modelled by insertion sort). -/
def sortInstancesByLoad (instances : List (String × PoolInstance)) :
    List (String × PoolInstance) :=
  List.insertionSort loadLE instances

/-- The selection block of `scale_down` (lines 553-564): sort every pool
instance by load and take the first `actual_remove` ids. -/
def instances_to_remove (instances : List (String × PoolInstance))
    (actual_remove : Nat) : List String :=
  ((sortInstancesByLoad instances).take actual_remove).map Prod.fst

/-- The selection phase of `scale_down` (lines 524-564): the ids chosen for
removal, after the early returns and the `min_instances` clamp. -/
def scale_down_selection (cfg : PoolConfig)
    (instances : List (String × PoolInstance)) (target_count : Nat) :
    List String :=
  let current_count := instances.length
  if current_count ≤ target_count then []
  else
    let remove_count := current_count - target_count
    let min_remove := u32sub current_count cfg.min_instances
    let actual_remove := min remove_count min_remove
    if actual_remove = 0 then []
    else instances_to_remove instances actual_remove

/-! ### Default configurations (the `Default` impls of the source) -/

/-- `HealthCheckConfig::default()`. -/
def HealthCheckConfig.default : HealthCheckConfig :=
  { interval_secs := 30, timeout_secs := 5, failure_threshold := 3
    success_threshold := 2, enabled := true }

/-- `WeightConfig::default()`. -/
def WeightConfig.default : WeightConfig :=
  { default_weight := 100, min_weight := 1, max_weight := 1000
    adjustment_factor := 1 / 10, dynamic_adjustment := true }

/-- `FailoverConfig::default()`. -/
def FailoverConfig.default : FailoverConfig :=
  { max_retries := 3, retry_interval_ms := 100
    circuit_breaker_threshold := 1 / 2, circuit_breaker_recovery_secs := 60
    failure_threshold := 3, success_threshold := 2, enabled := true }

/-- `MonitoringConfig::default()`. -/
def MonitoringConfig.default : MonitoringConfig :=
  { window_size_secs := 300, sampling_interval_ms := 1000, enabled := true }

/-- `LoadBalancerConfig::default()`. -/
def LoadBalancerConfig.default : LoadBalancerConfig :=
  { strategy := .RoundRobin, health_check := .default
    weight_config := .default, failover_config := .default
    monitoring_config := .default }

/-- `LoadBalancerState::default()`. -/
def LoadBalancerState.default : LoadBalancerState :=
  { round_robin_counter := 0, weighted_round_robin_weights := []
    random_seed := 0, consistent_hash_ring := [], adaptive_weights := [] }

/-- `PerformanceStats::default()` (`min_response_time_ms` is `u64::MAX`). -/
def PerformanceStats.default (now : Nat) : PerformanceStats :=
  { total_requests := 0, successful_requests := 0, failed_requests := 0
    total_response_time_ms := 0, min_response_time_ms := 2 ^ 64 - 1
    max_response_time_ms := 0, last_updated := now }

/-- `InstanceConfig::default()`. -/
def InstanceConfig.default : InstanceConfig :=
  { max_idle_duration_secs := 300, warm_timeout_secs := 30
    max_execution_duration_secs := 60, enable_auto_warm := true
    warm_concurrency := 1, resource_quota_name := some "default", labels := [] }

/-- `CompilerConfig::default()`. -/
def CompilerConfig.default : CompilerConfig :=
  { rustc_path := none, opt_level := 2, debug_info := false
    compile_timeout_secs := 30, cache_dir := "./flux_cache"
    max_cache_entries := 100, rust_target_dir := none }

/-! ### Derived forms and concrete fixtures used by the claim theorems -/

/-- The arguments of one `update_target_status` call (besides the target
and the success flag). -/
structure StatusUpdate where
  now : Nat
  load : ℚ
  connections : Nat
  response_time_ms : ℚ

/-- A sequence of `update_target_status` calls with `ok = false` applied to
one target (each call resolves the target and applies
`update_target_once`). -/
def applyFailUpdates (cfg : LoadBalancerConfig) (t : LoadBalanceTarget)
    (ps : List StatusUpdate) : LoadBalanceTarget :=
  ps.foldl
    (fun t p => update_target_once cfg p.now false p.load p.connections
      p.response_time_ms t) t

/-- A target fixture. -/
def mkTarget (id : String) (weight : Nat) (load : ℚ) (conns : Nat)
    (healthy : Bool) (cb : CircuitBreakerState) : LoadBalanceTarget :=
  { id := id, name := id, weight := weight, current_load := load
    active_connections := conns, avg_response_time_ms := 50
    is_healthy := healthy, last_activity := 0, consecutive_failures := 0
    consecutive_successes := 0, circuit_breaker_state := cb
    performance_stats := PerformanceStats.default 0 }

/-- C5 fixture: an eligible target `t1`. -/
def c5t1 : LoadBalanceTarget := mkTarget "t1" 1 (1 / 2) 0 true .Closed

/-- C5 fixture: target `t2`, healthy but with an `Open` breaker, hence not
eligible for routing. -/
def c5t2 : LoadBalanceTarget := mkTarget "t2" 1 (1 / 2) 0 true .Open

/-- C5 fixture: the target map. -/
def c5targets : List (String × LoadBalanceTarget) := [("t1", c5t1), ("t2", c5t2)]

/-- C5 fixture: the balancer state whose ring was built by
`update_consistent_hash_ring` over both registered targets, as `add_target`
does. -/
def c5state : LoadBalancerState :=
  update_consistent_hash_ring c5targets LoadBalancerState.default

/-- C5 fixture: configuration selecting by consistent hash. -/
def c5cfg : LoadBalancerConfig :=
  { LoadBalancerConfig.default with strategy := .ConsistentHash }

/-- C7 fixture: configuration selecting by weighted random. -/
def c7cfg : LoadBalancerConfig :=
  { LoadBalancerConfig.default with strategy := .WeightedRandom }

/-- C7 fixture: a single eligible target whose weight is zero. -/
def c7t : LoadBalanceTarget := mkTarget "t1" 0 (1 / 2) 1 true .Closed

/-- C8 fixture: a target whose breaker is `Open` and whose last activity
lies far in the past. -/
def c8t : LoadBalanceTarget := mkTarget "t1" 100 (1 / 2) 1 false .Open

/-- C4 fixture: a fresh healthy target with a `Closed` breaker. -/
def c4t : LoadBalanceTarget := mkTarget "t1" 100 (1 / 2) 1 true .Closed

/-- C4 fixture: one status-update argument tuple. -/
def c4p : StatusUpdate :=
  { now := 1000, load := 4 / 5, connections := 20, response_time_ms := 200 }

/-- C10 fixture: a registered target. -/
def c10t : LoadBalanceTarget := mkTarget "t1" 100 (1 / 2) 1 true .Closed

/-- Function metadata fixture. -/
def mkFn (name code : String) (timeout_ms : Nat) : FunctionMetadata :=
  { id := 0, name := name, description := "", code := code
    created_at := 0, updated_at := 0, timeout_ms := timeout_ms
    version := "1.0.0", dependencies := [], script_type := .Rust }

/-- C1 fixture: a function whose declared `timeout_ms` is 500. -/
def c1fn : FunctionMetadata := mkFn "sleeper" "loop" 500

/-- C1 fixture: a child process that runs for 2000 ms (past the function's
`timeout_ms` of 500 but below the sandbox's 30 s deadline) and then exits
successfully. -/
def c1child : ChildRun :=
  { runMs := 2000, exitSuccess := true, exitCode := some 0
    stdout := "ok", stderrOut := "", stdoutIsJson := false
    peakMemory := 1000, cpuUsage := 1 }

/-- C1 fixture: a child process that would run for 40 s, past the sandbox
deadline. -/
def c1child2 : ChildRun :=
  { runMs := 40000, exitSuccess := true, exitCode := some 0
    stdout := "ok", stderrOut := "", stdoutIsJson := false
    peakMemory := 1000, cpuUsage := 1 }

/-- C2 fixture: a compiled function for the instance. -/
def c2cf : CompiledFunction :=
  { metadata := mkFn "f" "code" 5000, library_path := "./flux_cache/f_h.so"
    compiled_at := 0, source_hash := "h", compile_time_ms := 10 }

/-- C2 fixture: a `Ready` instance holding a compiled function. -/
def c2inst : FunctionInstance :=
  { instance_id := "i1", function_name := "f"
    function_metadata := mkFn "f" "code" 5000
    compiled_function := some c2cf, state := .Ready
    config := InstanceConfig.default, created_at := 0, last_activity := 0
    execution_stats :=
      { total_executions := 0, successful_executions := 0
        failed_executions := 0, avg_execution_time_ms := 0
        max_execution_time_ms := 0, min_execution_time_ms := 0
        last_execution_time := none, total_cpu_time_ms := 0
        peak_memory_bytes := 0 }
    process_id := none, version := 1 }

/-- C2 fixture: the instance map. -/
def c2map : List (String × FunctionInstance) := [("i1", c2inst)]

/-- C2 fixture: a successful sandbox result. -/
def c2sr : SandboxResult :=
  { status := .Success, output := .parsedJson "42", execution_time_ms := 5
    peak_memory_bytes := 100, cpu_usage_percent := 1, exit_code := some 0
    stdout := "42", stderr := "" }

/-- C3/C9 fixture: an abstract digest function (the theorems quantify over
the digest; this instance is only used by the witnesses). -/
def c3md5 (_ : String) : String := "h"

/-- C3 fixture: a key-iteration oracle (`keys().next()` picks the first
key in iteration order; here: the first entry). -/
def c3kc (m : List (String × CompiledFunction)) : Option String :=
  (m.map Prod.fst).head?

/-- C3 fixture: the compiled function. -/
def c3fn : FunctionMetadata := mkFn "f" "c" 5000

/-- C3 fixture: the artifact produced by the first compile call. -/
def c3cf1 : CompiledFunction :=
  { metadata := c3fn, library_path := "./flux_cache/f_h.so"
    compiled_at := 1, source_hash := "h", compile_time_ms := 2 }

/-- C3 fixture: the compiler state after the first compile call. -/
def c3st1 : CompilerState :=
  { compiled_functions := [("f", c3cf1)], disk := ["./flux_cache/f_h.so"] }

/-- C9 fixture: the older memo entry (compiled at time 0). -/
def c9cfA : CompiledFunction :=
  { metadata := mkFn "a" "ca" 5000, library_path := "./flux_cache/a_ha.so"
    compiled_at := 0, source_hash := "ha", compile_time_ms := 2 }

/-- C9 fixture: the newer entry being inserted (compiled at time 100). -/
def c9cfB : CompiledFunction :=
  { metadata := mkFn "b" "cb" 5000, library_path := "./flux_cache/b_hb.so"
    compiled_at := 100, source_hash := "hb", compile_time_ms := 2 }

/-- C9 fixture: a memo bounded at one entry. -/
def c9cfg : CompilerConfig := { CompilerConfig.default with max_cache_entries := 1 }

/-- C9 fixture: an iteration order whose first key is the last list entry —
one of the orders an arbitrary `HashMap` iteration can produce. -/
def c9kc (m : List (String × CompiledFunction)) : Option String :=
  (m.map Prod.fst).getLast?

/-- C3 fixture: the compiler state before the eviction counterexample — a
memo already filled to its capacity of one with an unrelated entry. -/
def c3st0 : CompilerState :=
  { compiled_functions := [("a", c9cfA)], disk := ["./flux_cache/a_ha.so"] }

/-- C3 fixture: the state the eviction counterexample's first compile call
produces — the capacity eviction removed the just-inserted entry for `f`
itself, so only the unrelated entry remains (while the fresh artifact file
is on disk). -/
def c3st1e : CompilerState :=
  { compiled_functions := [("a", c9cfA)]
    disk := ["./flux_cache/f_h.so", "./flux_cache/a_ha.so"] }

/-- C6 fixture: a lightly loaded instance with five active connections. -/
def c6i1 : PoolInstance :=
  { instance_id := "i1", current_load := 1 / 10, active_connections := 5
    last_activity := 0, avg_response_time_ms := 10, is_healthy := true
    created_at := 0 }

/-- C6 fixture: a heavily loaded instance with no active connections. -/
def c6i2 : PoolInstance :=
  { instance_id := "i2", current_load := 9 / 10, active_connections := 0
    last_activity := 0, avg_response_time_ms := 10, is_healthy := true
    created_at := 0 }

/-- C6 fixture: a pool configuration (`PoolConfig::default()`). -/
def c6cfg : PoolConfig :=
  { min_instances := 1, max_instances := 10, target_instances := 2
    scale_up_threshold := 4 / 5, scale_down_threshold := 3 / 10
    scale_up_cooldown_secs := 60, scale_down_cooldown_secs := 300
    warm_new_instances := true, health_check_interval_secs := 30
    load_balance_strategy := .RoundRobin
    instance_config := InstanceConfig.default }

/-! ## Lemmas about the association-list operations -/

lemma lookupA_mem {α : Type} {m : List (String × α)} {k : String} {v : α}
    (h : lookupA m k = some v) : (k, v) ∈ m := by
  induction m with
  | nil => simp [lookupA] at h
  | cons p rest ih =>
      by_cases hk : p.1 = k
      · simp only [lookupA, if_pos hk] at h
        cases h
        subst hk
        exact List.mem_cons_self _ _
      · simp only [lookupA, if_neg hk] at h
        exact List.mem_cons_of_mem _ (ih h)

lemma mem_lookupA_of_nodup {α : Type} {m : List (String × α)} {k : String}
    {v : α} (hnd : (m.map Prod.fst).Nodup) (h : (k, v) ∈ m) :
    lookupA m k = some v := by
  induction m with
  | nil => simp at h
  | cons p rest ih =>
      simp only [List.map_cons, List.nodup_cons] at hnd
      rcases List.mem_cons.mp h with heq | hmem
      · subst heq
        simp [lookupA]
      · have hk : p.1 ≠ k := by
          intro hk
          exact hnd.1 (hk ▸ (List.mem_map.mpr ⟨(k, v), hmem, rfl⟩))
        simp only [lookupA]
        rw [if_neg hk]
        exact ih hnd.2 hmem

lemma lookupA_alistUpdate_self {α : Type} (m : List (String × α)) (k : String)
    (v : α) {t : α} (h : lookupA m k = some t) :
    lookupA (alistUpdate m k v) k = some v := by
  induction m with
  | nil => simp [lookupA] at h
  | cons p rest ih =>
      by_cases hk : p.1 = k
      · simp [alistUpdate, lookupA, hk]
      · simp only [lookupA, if_neg hk] at h
        simp only [alistUpdate, lookupA, if_neg hk]
        exact ih h

lemma lookupA_isSome_alistUpdate {α : Type} (m : List (String × α))
    (k k' : String) (v : α) :
    (lookupA (alistUpdate m k' v) k).isSome = (lookupA m k).isSome := by
  induction m with
  | nil => rfl
  | cons p rest ih =>
      by_cases hk' : p.1 = k'
      · by_cases hk : p.1 = k
        · have hkk : k' = k := hk'.symm.trans hk
          simp [alistUpdate, lookupA, hk', hk, hkk]
        · have hkk : ¬k' = k := fun h => hk (hk'.trans h)
          simp [alistUpdate, lookupA, hk', hk, hkk]
      · by_cases hk : p.1 = k
        · have hkk : ¬k = k' := fun h => hk' (hk.trans h)
          simp [alistUpdate, lookupA, hk', hk, hkk]
        · simp only [alistUpdate, lookupA, if_neg hk', if_neg hk]
          exact ih

lemma alistErase_length {α : Type} (m : List (String × α)) (k : String)
    (h : k ∈ m.map Prod.fst) : (alistErase m k).length + 1 = m.length := by
  induction m with
  | nil => simp at h
  | cons p rest ih =>
      by_cases hk : p.1 = k
      · simp [alistErase, if_pos hk]
      · have hmem : k ∈ rest.map Prod.fst := by
          rcases List.mem_map.mp h with ⟨q, hq, hqk⟩
          rcases List.mem_cons.mp hq with rfl | hq'
          · exact absurd hqk hk
          · exact List.mem_map.mpr ⟨q, hq', hqk⟩
        simp only [alistErase]
        rw [if_neg hk]
        simp only [List.length_cons]
        rw [← ih hmem]

/-! ## Lemmas about target updates and the circuit breaker -/

lemma update_target_fields_cb (now : Nat) (h : Bool) (l : ℚ) (c : Nat) (r : ℚ)
    (t : LoadBalanceTarget) :
    (update_target_fields now h l c r t).circuit_breaker_state =
      t.circuit_breaker_state := by
  unfold update_target_fields
  split <;> rfl

lemma update_target_fields_last (now : Nat) (h : Bool) (l : ℚ) (c : Nat) (r : ℚ)
    (t : LoadBalanceTarget) :
    (update_target_fields now h l c r t).last_activity = now := by
  unfold update_target_fields
  split <;> rfl

lemma update_target_fields_failures_false (now : Nat) (l : ℚ) (c : Nat) (r : ℚ)
    (t : LoadBalanceTarget) :
    (update_target_fields now false l c r t).consecutive_failures =
      t.consecutive_failures + 1 := by
  unfold update_target_fields
  simp

/-- The `Open` state absorbs every `update_target_status` call: the call
refreshes `last_activity` to `now` before re-evaluating the breaker, so the
`Open` arm compares the recovery window against an elapsed time of zero. -/
lemma update_target_once_open_absorbing (cfg : LoadBalancerConfig) (now : Nat)
    (h : Bool) (l : ℚ) (c : Nat) (r : ℚ) (t : LoadBalanceTarget)
    (hcb : t.circuit_breaker_state = .Open) :
    (update_target_once cfg now h l c r t).circuit_breaker_state = .Open := by
  unfold update_target_once
  have hcb' : (update_target_fields now h l c r t).circuit_breaker_state = .Open := by
    rw [update_target_fields_cb, hcb]
  have hla : (update_target_fields now h l c r t).last_activity = now :=
    update_target_fields_last now h l c r t
  unfold update_circuit_breaker_state
  split
  · next heq => rw [hcb'] at heq; cases heq
  · rw [hla, Nat.sub_self]
    rw [if_neg (Nat.not_lt_zero _)]
    exact hcb'
  · next heq => rw [hcb'] at heq; cases heq

lemma update_once_fail_closed (cfg : LoadBalancerConfig) (now : Nat) (l : ℚ)
    (c : Nat) (r : ℚ) (t : LoadBalanceTarget)
    (hcb : t.circuit_breaker_state = .Closed) :
    (update_target_once cfg now false l c r t).consecutive_failures =
      t.consecutive_failures + 1 ∧
    (update_target_once cfg now false l c r t).circuit_breaker_state =
      (if cfg.failover_config.failure_threshold ≤ t.consecutive_failures + 1
       then CircuitBreakerState.Open else CircuitBreakerState.Closed) := by
  unfold update_target_once
  have hcb' : (update_target_fields now false l c r t).circuit_breaker_state = .Closed := by
    rw [update_target_fields_cb, hcb]
  have hcf : (update_target_fields now false l c r t).consecutive_failures =
      t.consecutive_failures + 1 := update_target_fields_failures_false now l c r t
  unfold update_circuit_breaker_state
  split
  · rw [hcf]
    by_cases hth :
        cfg.failover_config.failure_threshold ≤ t.consecutive_failures + 1
    · rw [if_pos hth, if_pos hth]
      exact ⟨hcf, rfl⟩
    · rw [if_neg hth, if_neg hth]
      exact ⟨hcf, hcb'⟩
  · next heq => rw [hcb'] at heq; cases heq
  · next heq => rw [hcb'] at heq; cases heq

lemma applyFailUpdates_cons (cfg : LoadBalancerConfig) (t : LoadBalanceTarget)
    (p : StatusUpdate) (ps : List StatusUpdate) :
    applyFailUpdates cfg t (p :: ps) =
      applyFailUpdates cfg (update_target_once cfg p.now false p.load
        p.connections p.response_time_ms t) ps := rfl

lemma applyFailUpdates_open (cfg : LoadBalancerConfig) :
    ∀ (ps : List StatusUpdate) (t : LoadBalanceTarget),
      t.circuit_breaker_state = .Open →
      (applyFailUpdates cfg t ps).circuit_breaker_state = .Open
  | [], _, hcb => hcb
  | p :: ps, t, hcb =>
      applyFailUpdates_open cfg ps _
        (update_target_once_open_absorbing cfg p.now false p.load
          p.connections p.response_time_ms t hcb)

lemma applyFailUpdates_closed_of_lt (cfg : LoadBalancerConfig) :
    ∀ (ps : List StatusUpdate) (t : LoadBalanceTarget),
      t.circuit_breaker_state = .Closed →
      t.consecutive_failures + ps.length < cfg.failover_config.failure_threshold →
      (applyFailUpdates cfg t ps).circuit_breaker_state = .Closed ∧
      (applyFailUpdates cfg t ps).consecutive_failures =
        t.consecutive_failures + ps.length
  | [], t, hcb, _ => ⟨hcb, rfl⟩
  | p :: ps, t, hcb, hlt => by
      have hstep := update_once_fail_closed cfg p.now p.load p.connections
        p.response_time_ms t hcb
      have hcb' : (update_target_once cfg p.now false p.load p.connections
          p.response_time_ms t).circuit_breaker_state = .Closed := by
        rw [hstep.2, if_neg]
        simp only [List.length_cons] at hlt
        omega
      have hrec := applyFailUpdates_closed_of_lt cfg ps _ hcb'
        (by rw [hstep.1]; simp only [List.length_cons] at hlt ⊢; omega)
      rw [applyFailUpdates_cons]
      refine ⟨hrec.1, ?_⟩
      rw [hrec.2, hstep.1]
      simp only [List.length_cons]
      omega

lemma applyFailUpdates_opens (cfg : LoadBalancerConfig) :
    ∀ (ps : List StatusUpdate) (t : LoadBalanceTarget),
      t.circuit_breaker_state = .Closed →
      t.consecutive_failures < cfg.failover_config.failure_threshold →
      cfg.failover_config.failure_threshold ≤
        t.consecutive_failures + ps.length →
      (applyFailUpdates cfg t ps).circuit_breaker_state = .Open
  | [], _, _, hlt, hge => absurd hge (by simpa using Nat.not_le_of_lt hlt)
  | p :: ps, t, hcb, hlt, hge => by
      have hstep := update_once_fail_closed cfg p.now p.load p.connections
        p.response_time_ms t hcb
      by_cases hth :
          cfg.failover_config.failure_threshold ≤ t.consecutive_failures + 1
      · have hopen : (update_target_once cfg p.now false p.load p.connections
            p.response_time_ms t).circuit_breaker_state = .Open := by
          rw [hstep.2, if_pos hth]
        exact applyFailUpdates_open cfg ps _ hopen
      · have hcb' : (update_target_once cfg p.now false p.load p.connections
            p.response_time_ms t).circuit_breaker_state = .Closed := by
          rw [hstep.2, if_neg hth]
        exact applyFailUpdates_opens cfg ps _ hcb'
          (by rw [hstep.1]; omega)
          (by rw [hstep.1]; simp only [List.length_cons] at hge; omega)

/-! ## C10 -/

/-- C10: `update_target_status` on a target id that is not in the map
returns the `Target not found` error and leaves the whole target map — and
hence every registered target's counters, health flag, response-time
statistics, and circuit-breaker state — unchanged. -/
theorem c10_unknown_target_update_rejected (cfg : LoadBalancerConfig)
    (targets : List (String × LoadBalanceTarget)) (target_id : String)
    (is_healthy : Bool) (load : ℚ) (connections : Nat)
    (response_time_ms : ℚ) (now : Nat)
    (habs : lookupA targets target_id = none) :
    update_target_status cfg targets target_id is_healthy load connections
        response_time_ms now =
      (.error ("Target not found: " ++ target_id), targets) := by
  unfold update_target_status
  rw [habs]

/-- C10 witness: a concrete map with an unknown id. -/
theorem c10_witness :
    update_target_status LoadBalancerConfig.default [("t1", c10t)] "zz" true
        (1 / 2) 1 50 5 =
      (.error ("Target not found: " ++ "zz"), [("t1", c10t)]) :=
  c10_unknown_target_update_rejected LoadBalancerConfig.default
    [("t1", c10t)] "zz" true (1 / 2) 1 50 5 (by decide)

/-! ## C8 -/

/-- C8: the claim is wrong about the code — this is a code bug.  Even when
`last_activity + recovery_time < now` holds at the moment of the call, the
next `update_target_status` does not move an `Open` breaker to `HalfOpen`:
the call first refreshes `last_activity` to `now` and only then re-evaluates
the breaker, so the `Open` arm sees a zero elapsed time and the target stays
`Open`. -/
theorem c8_open_breaker_never_half_opens (cfg : LoadBalancerConfig)
    (targets : List (String × LoadBalanceTarget)) (target_id : String)
    (is_healthy : Bool) (load : ℚ) (connections : Nat) (response_time_ms : ℚ)
    (now : Nat) (t : LoadBalanceTarget)
    (hlk : lookupA targets target_id = some t)
    (hcb : t.circuit_breaker_state = .Open)
    (_helapsed : t.last_activity +
      cfg.failover_config.circuit_breaker_recovery_secs * 1000 < now) :
    ∃ m', update_target_status cfg targets target_id is_healthy load
        connections response_time_ms now = (.ok (), m') ∧
      ∃ t', lookupA m' target_id = some t' ∧
        t'.circuit_breaker_state = .Open := by
  unfold update_target_status
  rw [hlk]
  exact ⟨_, rfl, update_target_once cfg now is_healthy load connections
      response_time_ms t,
    lookupA_alistUpdate_self targets target_id _ hlk,
    update_target_once_open_absorbing cfg now is_healthy load connections
      response_time_ms t hcb⟩

/-- C8 witness: recovery time 60 s, last activity at time 0, update at
1 000 000 ms — the recovery window has long elapsed, yet the breaker stays
`Open`. -/
theorem c8_witness :
    ∃ m', update_target_status LoadBalancerConfig.default [("t1", c8t)] "t1"
        false (1 / 2) 1 50 1000000 = (.ok (), m') ∧
      ∃ t', lookupA m' "t1" = some t' ∧
        t'.circuit_breaker_state = .Open :=
  c8_open_breaker_never_half_opens LoadBalancerConfig.default [("t1", c8t)]
    "t1" false (1 / 2) 1 50 1000000 c8t rfl rfl (by decide)

/-! ## C4 -/

/-- C4: from a `Closed` breaker with zero consecutive failures, exactly
`failure_threshold` consecutive failed `update_target_status` calls open the
breaker, and any strictly smaller number of such calls leaves it `Closed`
(for any positive threshold). -/
theorem c4_breaker_opens_at_exact_threshold (cfg : LoadBalancerConfig)
    (t : LoadBalanceTarget) (ps : List StatusUpdate)
    (hthr : 1 ≤ cfg.failover_config.failure_threshold)
    (hcb : t.circuit_breaker_state = .Closed)
    (hf : t.consecutive_failures = 0) :
    (ps.length = cfg.failover_config.failure_threshold →
      (applyFailUpdates cfg t ps).circuit_breaker_state = .Open) ∧
    (ps.length < cfg.failover_config.failure_threshold →
      (applyFailUpdates cfg t ps).circuit_breaker_state = .Closed) := by
  constructor
  · intro hlen
    exact applyFailUpdates_opens cfg ps t hcb (by omega) (by omega)
  · intro hlen
    exact (applyFailUpdates_closed_of_lt cfg ps t hcb (by omega)).1

/-- C4 witness: with the default threshold of 3, three failed updates open
the breaker and two leave it closed. -/
theorem c4_witness :
    (applyFailUpdates LoadBalancerConfig.default c4t
        [c4p, c4p, c4p]).circuit_breaker_state = .Open ∧
    (applyFailUpdates LoadBalancerConfig.default c4t
        [c4p, c4p]).circuit_breaker_state = .Closed :=
  ⟨(c4_breaker_opens_at_exact_threshold LoadBalancerConfig.default c4t
      [c4p, c4p, c4p] (by decide) (by decide) (by decide)).1 (by decide),
   (c4_breaker_opens_at_exact_threshold LoadBalancerConfig.default c4t
      [c4p, c4p] (by decide) (by decide) (by decide)).2 (by decide)⟩

/-! ## C1 -/

/-- C1: the claim fails on the code.  A child whose body runs for 2000 ms —
four times the invoked function's `timeout_ms` of 500 — is neither killed
nor reported as `Timeout`: the sandbox deadline is the config's 30 s, the
child runs to completion and the record's status is `Completed`.  And when
the sandbox deadline itself expires, the returned status is `Failed`, not
`Timeout` (though the child is then force-killed). -/
theorem c1_counterexample :
    c1fn.timeout_ms < c1child.runMs ∧
    (execute_in_process SandboxConfig.default c1child).2 = false ∧
    (execute_in_process SandboxConfig.default c1child).1.status = .Completed ∧
    (execute_in_process SandboxConfig.default c1child).1.status ≠ .Timeout ∧
    (execute_in_process SandboxConfig.default c1child2).1.status = .Failed ∧
    (execute_in_process SandboxConfig.default c1child2).1.status ≠ .Timeout ∧
    (execute_in_process SandboxConfig.default c1child2).2 = true := by
  refine ⟨by decide, rfl, rfl, by decide, rfl, by decide, rfl⟩

/-- C1 (amended): the executor's wall-clock deadline is the sandbox
config's `execution_timeout_secs` (the function's `timeout_ms` is not
consulted); when the child runs past it, the child is force-killed
(SIGTERM, one-second grace, SIGKILL) and the returned record has status
`Failed` with the `Execution timeout` error payload and exit code `-1`. -/
theorem c1_sandbox_deadline_from_config (cfg : SandboxConfig) (child : ChildRun)
    (h : cfg.execution_timeout_secs * 1000 < child.runMs) :
    execute_in_process cfg child =
      ({ status := .Failed
         output := .errorObj "Execution timeout"
         execution_time_ms := cfg.execution_timeout_secs * 1000
         peak_memory_bytes := 0
         cpu_usage_percent := 0
         exit_code := some (-1)
         stdout := ""
         stderr := "Execution timeout" }, true) := by
  unfold execute_in_process
  rw [if_pos h]

/-- C1 witness: the default 30 s deadline expires on a 40 s child. -/
theorem c1_witness :
    execute_in_process SandboxConfig.default c1child2 =
      ({ status := .Failed
         output := .errorObj "Execution timeout"
         execution_time_ms := SandboxConfig.default.execution_timeout_secs * 1000
         peak_memory_bytes := 0
         cpu_usage_percent := 0
         exit_code := some (-1)
         stdout := ""
         stderr := "Execution timeout" }, true) :=
  c1_sandbox_deadline_from_config SandboxConfig.default c1child2 (by decide)

/-! ## C2 -/

lemma update_execution_stats_lookup_isSome
    (m : List (String × FunctionInstance)) (id : String) (sr : SandboxResult)
    (ems : Nat) (rs : Option ResourceSummary) (now : Nat) :
    (lookupA (update_execution_stats m id sr ems rs now) id).isSome =
      (lookupA m id).isSome := by
  unfold update_execution_stats
  cases h : lookupA m id with
  | none => simp [h]
  | some inst => simp [h, lookupA_isSome_alistUpdate]

/-- C2: the claim fails on the code.  From a `Ready` instance, a successful
`execute_instance` returns with the instance phase set to `Idle`, not
`Ready`: the tail of `execute_instance` unconditionally stores
`InstanceState::Idle`. -/
theorem c2_counterexample :
    ∃ resp m', execute_instance c2map "i1" (.ok c2sr) 5 none 100 =
        .ok (resp, m') ∧
      resp.status = .Success ∧
      ∃ t', lookupA m' "i1" = some t' ∧ t'.state = .Idle ∧
        t'.state ≠ InstanceState.Ready :=
  ⟨_, _, rfl, rfl, _, rfl, rfl, by decide⟩

/-- C2 (amended): for an instance in phase `Ready` or `Idle`, `execute`
moves the phase to `Running` for the duration of the call and, when the
sandbox call returns (successfully or not), stores the phase `Idle` — so
the phase observed after a successful `execute` returns is `Idle`, not
`Ready`. -/
theorem c2_execute_runs_then_idles
    (instances : List (String × FunctionInstance)) (instance_id : String)
    (sr : SandboxResult) (ems : Nat) (rs : Option ResourceSummary) (now : Nat)
    (inst : FunctionInstance)
    (hlk : lookupA instances instance_id = some inst)
    (hready : inst.state = .Ready ∨ inst.state = .Idle)
    (hcf : inst.compiled_function.isSome) :
    (markRunning inst now).state = .Running ∧
    ∃ m', execute_instance instances instance_id (.ok sr) ems rs now =
        .ok ({ output := sr.output
               execution_time_ms := sr.execution_time_ms
               status := sr.status }, m') ∧
      ∃ t', lookupA m' instance_id = some t' ∧ t'.state = .Idle := by
  refine ⟨rfl, ?_⟩
  obtain ⟨cf, hcfeq⟩ := Option.isSome_iff_exists.mp hcf
  simp only [execute_instance, hlk]
  rw [if_neg (not_not_intro hready)]
  simp only [hcfeq]
  refine ⟨_, rfl, ?_⟩
  have h1 : lookupA (alistUpdate instances instance_id (markRunning inst now))
      instance_id = some (markRunning inst now) :=
    lookupA_alistUpdate_self instances instance_id _ hlk
  have h2 : (lookupA (update_execution_stats
      (alistUpdate instances instance_id (markRunning inst now)) instance_id
      sr ems rs now) instance_id).isSome := by
    rw [update_execution_stats_lookup_isSome, h1]
    rfl
  obtain ⟨t2, ht2⟩ := Option.isSome_iff_exists.mp h2
  exact ⟨_, lookupA_alistUpdate_self _ _ _ ht2, rfl⟩

/-- C2 witness: the concrete `Ready` instance. -/
theorem c2_witness :
    (markRunning c2inst 100).state = .Running ∧
    ∃ m', execute_instance c2map "i1" (.ok c2sr) 5 none 100 =
        .ok ({ output := c2sr.output
               execution_time_ms := c2sr.execution_time_ms
               status := c2sr.status }, m') ∧
      ∃ t', lookupA m' "i1" = some t' ∧ t'.state = .Idle :=
  c2_execute_runs_then_idles c2map "i1" c2sr 5 none 100 c2inst rfl
    (Or.inl rfl) rfl

/-! ## C3 -/

lemma get_cached_function_some (st : CompilerState) (n h : String)
    (c : CompiledFunction) (hc : get_cached_function st n h = some c) :
    c.source_hash = h ∧ c.library_path ∈ st.disk := by
  unfold get_cached_function at hc
  cases hl : lookupA st.compiled_functions n with
  | none => simp only [hl] at hc; cases hc
  | some compiled =>
      simp only [hl] at hc
      by_cases hcond : compiled.source_hash = h ∧ compiled.library_path ∈ st.disk
      · rw [if_pos hcond] at hc
        cases hc
        exact hcond
      · rw [if_neg hcond] at hc
        cases hc

lemma compile_function_ok_invariants (md5hex : String → String)
    (cfg : CompilerConfig)
    (kc : List (String × CompiledFunction) → Option String)
    (st : CompilerState) (fn : FunctionMetadata)
    (br : Except String String) (now ms : Nat) (cf : CompiledFunction)
    (used : Bool) (st' : CompilerState)
    (h : compile_function md5hex cfg kc st fn br now ms = .ok (cf, used, st')) :
    cf.source_hash = md5hex fn.code ∧ cf.library_path ∈ st'.disk := by
  unfold compile_function at h
  dsimp only at h
  split at h
  · next cached hc =>
      simp only [Except.ok.injEq, Prod.mk.injEq] at h
      obtain ⟨h1, _, h3⟩ := h
      subst h1
      subst h3
      exact get_cached_function_some st fn.name (md5hex fn.code) _ hc
  · split at h
    · cases h
    · simp only [Except.ok.injEq, Prod.mk.injEq] at h
      obtain ⟨h1, _, h3⟩ := h
      subst h1
      subst h3
      exact ⟨rfl, List.mem_cons_self _ _⟩

/-- C3: the claim fails on the code.  With the memo at its capacity of
one, the first compile of `f` succeeds but the post-insert capacity
eviction removes the key yielded first by the map's iteration order —
here the just-inserted entry for `f` itself.  The immediate second compile
call with the same name and identical source bytes then misses the memo
and consults the toolchain again, surfacing its error instead of
returning the memoized artifact: compile is not unconditionally
idempotent on the source hash. -/
theorem c3_counterexample :
    compile_function c3md5 c9cfg c9kc c3st0 c3fn
        (.ok "target/release/libf.so") 1 2 = .ok (c3cf1, false, c3st1e) ∧
    compile_function c3md5 c9cfg c9kc c3st1e c3fn
        (.error "toolchain unavailable") 9 9 =
      .error "toolchain unavailable" := by
  constructor
  · with_unfolding_all rfl
  · with_unfolding_all rfl

/-- C3 (amended): compilation is idempotent on the source hash provided
the memo entry survived.  If a compile call returned an artifact for `fn`
and that artifact's memo entry was not evicted by the capacity bound —
its cache file necessarily exists — then a second compile call for the
same name and the same source bytes returns the very same artifact (in
particular the same cached artifact path) with the cache-hit flag set,
without consulting the toolchain (`br2` is arbitrary and unused).  The
proviso is necessary: the capacity eviction can remove the just-inserted
entry itself. -/
theorem c3_compile_idempotent_on_source_hash (md5hex : String → String)
    (cfg : CompilerConfig)
    (kc : List (String × CompiledFunction) → Option String)
    (st st1 : CompilerState) (fn : FunctionMetadata)
    (br1 br2 : Except String String) (now1 ms1 now2 ms2 : Nat)
    (cf1 : CompiledFunction) (used1 : Bool)
    (h1 : compile_function md5hex cfg kc st fn br1 now1 ms1 =
      .ok (cf1, used1, st1))
    (hsurv : lookupA st1.compiled_functions fn.name = some cf1) :
    compile_function md5hex cfg kc st1 fn br2 now2 ms2 =
      .ok (cf1, true, st1) := by
  obtain ⟨hh, hd⟩ := compile_function_ok_invariants md5hex cfg kc st fn br1
    now1 ms1 cf1 used1 st1 h1
  have hc : get_cached_function st1 fn.name (md5hex fn.code) = some cf1 := by
    unfold get_cached_function
    rw [hsurv]
    dsimp only
    rw [if_pos ⟨hh, hd⟩]
  unfold compile_function
  dsimp only
  rw [hc]

/-- C3 witness: a concrete first compile followed by a second call whose
injected build outcome is an error — which is never consulted. -/
theorem c3_witness :
    compile_function c3md5 CompilerConfig.default c3kc c3st1 c3fn
        (.error "toolchain unavailable") 9 9 = .ok (c3cf1, true, c3st1) :=
  c3_compile_idempotent_on_source_hash c3md5 CompilerConfig.default c3kc
    ⟨[], []⟩ c3st1 c3fn (.ok "target/release/libf.so")
    (.error "toolchain unavailable") 1 2 9 9 c3cf1 false
    (by with_unfolding_all rfl) (by with_unfolding_all rfl)

/-! ## C9 -/

/-- C9: the claim fails on the code.  With `max_cache_entries = 1`, caching
the newer entry `b` (compiled at 100) over a memo holding the older entry
`a` (compiled at 0) evicts whichever key the `HashMap` iteration yields
first — here `b`, the newest entry — while the oldest entry `a` survives. -/
theorem c9_counterexample :
    cache_compiled_function c9cfg c9kc [("a", c9cfA)] "b" c9cfB =
      [("a", c9cfA)] ∧
    c9kc (alistInsert [("a", c9cfA)] "b" c9cfB) = some "b" ∧
    c9cfA.compiled_at < c9cfB.compiled_at :=
  ⟨rfl, rfl, by decide⟩

/-- C9 (amended): when the insertion makes the memo exceed
`max_cache_entries`, exactly one entry is evicted, namely the first key of
the map's (unspecified) iteration order — not necessarily the oldest
entry. -/
theorem c9_eviction_removes_arbitrary_first_key (cfg : CompilerConfig)
    (kc : List (String × CompiledFunction) → Option String)
    (memo : List (String × CompiledFunction)) (name : String)
    (cf : CompiledFunction) (k : String)
    (hover : cfg.max_cache_entries < (alistInsert memo name cf).length)
    (hkc : kc (alistInsert memo name cf) = some k)
    (hmem : k ∈ (alistInsert memo name cf).map Prod.fst) :
    cache_compiled_function cfg kc memo name cf =
      alistErase (alistInsert memo name cf) k ∧
    (cache_compiled_function cfg kc memo name cf).length + 1 =
      (alistInsert memo name cf).length := by
  unfold cache_compiled_function
  rw [if_pos hover, hkc]
  exact ⟨rfl, alistErase_length _ _ hmem⟩

/-- C9 witness: the same concrete overfull memo. -/
theorem c9_witness :
    cache_compiled_function c9cfg c9kc [("a", c9cfA)] "b" c9cfB =
      alistErase (alistInsert [("a", c9cfA)] "b" c9cfB) "b" ∧
    (cache_compiled_function c9cfg c9kc [("a", c9cfA)] "b" c9cfB).length + 1 =
      (alistInsert [("a", c9cfA)] "b" c9cfB).length :=
  c9_eviction_removes_arbitrary_first_key c9cfg c9kc [("a", c9cfA)] "b" c9cfB
    "b" (by decide) rfl (by decide)

/-! ## C6 -/

/-- C6: the claim fails on the code.  `scale_down` selects purely by lowest
`current_load`: here the instance chosen for removal is `i1`, which has
five active connections, while the connection-free `i2` is kept. -/
theorem c6_counterexample :
    scale_down_selection c6cfg [("i1", c6i1), ("i2", c6i2)] 1 = ["i1"] ∧
    0 < c6i1.active_connections :=
  ⟨by with_unfolding_all rfl, by decide⟩

/-- C6 (amended): `scale_down` selects for removal a prefix of the
instances sorted by ascending `current_load` — the lowest-load instances
first — with no filter on `active_connections`. -/
theorem c6_scale_down_takes_lowest_load (cfg : PoolConfig)
    (instances : List (String × PoolInstance)) (target_count : Nat) :
    ∃ k, scale_down_selection cfg instances target_count =
        ((sortInstancesByLoad instances).take k).map Prod.fst ∧
      ∀ p ∈ (sortInstancesByLoad instances).take k,
        ∀ q ∈ (sortInstancesByLoad instances).drop k,
          p.2.current_load ≤ q.2.current_load := by
  have hcross : ∀ k, ∀ p ∈ (sortInstancesByLoad instances).take k,
      ∀ q ∈ (sortInstancesByLoad instances).drop k,
        p.2.current_load ≤ q.2.current_load := by
    intro k
    have hs : List.Pairwise loadLE (sortInstancesByLoad instances) :=
      List.sorted_insertionSort loadLE instances
    rw [← List.take_append_drop k (sortInstancesByLoad instances)] at hs
    exact fun p hp q hq => (List.pairwise_append.mp hs).2.2 p hp q hq
  unfold scale_down_selection
  by_cases h1 : instances.length ≤ target_count
  · exact ⟨0, by rw [if_pos h1]; rfl, hcross 0⟩
  · rw [if_neg h1]
    by_cases h2 :
        min (instances.length - target_count)
          (u32sub instances.length cfg.min_instances) = 0
    · exact ⟨0, by rw [if_pos h2]; rfl, hcross 0⟩
    · exact ⟨min (instances.length - target_count)
          (u32sub instances.length cfg.min_instances),
        by rw [if_neg h2]; rfl, hcross _⟩

/-! ## Selection lemmas for C7 and C5 -/

lemma foldl_add_weight (ts : List (String × LoadBalanceTarget)) : ∀ n : Nat,
    ts.foldl (fun acc p => acc + p.2.weight) n =
      n + (ts.map (fun p => p.2.weight)).sum := by
  induction ts with
  | nil => intro n; simp
  | cons p rest ih =>
      intro n
      simp only [List.foldl_cons, List.map_cons, List.sum_cons]
      rw [ih]
      omega

lemma foldl_ite_mem {α : Type} (p : α → α → Prop) [DecidableRel p] :
    ∀ (rest : List α) (acc : α),
      rest.foldl (fun acc y => if p y acc then y else acc) acc ∈ acc :: rest := by
  intro rest
  induction rest with
  | nil => intro acc; simp
  | cons y rest ih =>
      intro acc
      simp only [List.foldl_cons]
      by_cases hp : p y acc
      · rw [if_pos hp]
        rcases List.mem_cons.mp (ih y) with h | h
        · rw [h]; simp
        · simp [h]
      · rw [if_neg hp]
        rcases List.mem_cons.mp (ih acc) with h | h
        · rw [h]; simp
        · simp [h]

lemma minByNatKey_mem {α : Type} (key : α → Nat) (ts : List α) (x : α)
    (h : minByNatKey key ts = some x) : x ∈ ts := by
  cases ts with
  | nil => cases h
  | cons a rest =>
      unfold minByNatKey at h
      cases h
      exact foldl_ite_mem (fun y acc => key y < key acc) rest a

lemma minByRatKey_mem {α : Type} (key : α → ℚ) (ts : List α) (x : α)
    (h : minByRatKey key ts = some x) : x ∈ ts := by
  cases ts with
  | nil => cases h
  | cons a rest =>
      unfold minByRatKey at h
      cases h
      exact foldl_ite_mem (fun y acc => key y < key acc) rest a

lemma select_round_robin_isSome (ts : List (String × LoadBalanceTarget))
    (st : LoadBalancerState) (h : ts ≠ []) :
    ((select_round_robin ts st).1).isSome := by
  unfold select_round_robin
  have hlen : ts.length ≠ 0 := fun hc => h (List.length_eq_zero.mp hc)
  rw [if_neg hlen]
  rw [List.get?_eq_get (Nat.mod_lt _ (Nat.pos_of_ne_zero hlen))]
  rfl

lemma select_round_robin_mem (ts : List (String × LoadBalanceTarget))
    (st : LoadBalancerState) (id : String)
    (h : (select_round_robin ts st).1 = some id) : id ∈ ts.map Prod.fst := by
  unfold select_round_robin at h
  by_cases hlen : ts.length = 0
  · rw [if_pos hlen] at h; cases h
  · rw [if_neg hlen] at h
    cases hg : ts.get? (st.round_robin_counter % ts.length) with
    | none => rw [hg] at h; cases h
    | some p =>
        rw [hg] at h
        cases h
        exact List.mem_map.mpr ⟨p, List.get?_mem hg, rfl⟩

lemma select_random_isSome (ts : List (String × LoadBalanceTarget))
    (st : LoadBalancerState) (h : ts ≠ []) :
    ((select_random ts st).1).isSome := by
  unfold select_random
  have hlen : ts.length ≠ 0 := fun hc => h (List.length_eq_zero.mp hc)
  rw [if_neg hlen]
  rw [List.get?_eq_get (Nat.mod_lt _ (Nat.pos_of_ne_zero hlen))]
  rfl

lemma select_random_mem (ts : List (String × LoadBalanceTarget))
    (st : LoadBalancerState) (id : String)
    (h : (select_random ts st).1 = some id) : id ∈ ts.map Prod.fst := by
  unfold select_random at h
  by_cases hlen : ts.length = 0
  · rw [if_pos hlen] at h; cases h
  · rw [if_neg hlen] at h
    cases hg : ts.get? (lcgNext st.random_seed % ts.length) with
    | none => rw [hg] at h; cases h
    | some p =>
        rw [hg] at h
        cases h
        exact List.mem_map.mpr ⟨p, List.get?_mem hg, rfl⟩

lemma wrPick_mem (id : String) : ∀ (rw : Nat) (ts : List (String × LoadBalanceTarget)),
    wrPick rw ts = some id → id ∈ ts.map Prod.fst := by
  intro rw ts
  induction ts generalizing rw with
  | nil => intro h; cases h
  | cons p rest ih =>
      intro h
      unfold wrPick at h
      by_cases hlt : rw < p.2.weight
      · rw [if_pos hlt] at h
        cases h
        simp
      · rw [if_neg hlt] at h
        exact List.mem_cons_of_mem _ (ih _ h)

lemma select_weighted_random_isSome (ts : List (String × LoadBalanceTarget))
    (st : LoadBalancerState) (h : ts ≠ [])
    (hpos : ∀ p ∈ ts, 0 < p.2.weight)
    (hsum : (ts.map (fun p => p.2.weight)).sum < 2 ^ 32) :
    ((select_weighted_random ts st).1).isSome := by
  unfold select_weighted_random
  have hsumpos : 0 < (ts.map (fun p => p.2.weight)).sum := by
    cases ts with
    | nil => exact absurd rfl h
    | cons p rest =>
        have := hpos p (List.mem_cons_self p rest)
        simp only [List.map_cons, List.sum_cons]
        omega
  have htot : ts.foldl (fun acc p => acc + p.2.weight) 0 % 2 ^ 32 ≠ 0 := by
    rw [foldl_add_weight, Nat.zero_add, Nat.mod_eq_of_lt hsum]
    omega
  rw [if_neg htot]
  cases hp : wrPick (lcgNext st.random_seed %
      (ts.foldl (fun acc p => acc + p.2.weight) 0 % 2 ^ 32)) ts with
  | some id => rfl
  | none =>
      cases ts with
      | nil => exact absurd rfl h
      | cons p rest => rfl

lemma select_weighted_random_mem (ts : List (String × LoadBalanceTarget))
    (st : LoadBalancerState) (id : String)
    (h : (select_weighted_random ts st).1 = some id) : id ∈ ts.map Prod.fst := by
  unfold select_weighted_random at h
  by_cases htot : ts.foldl (fun acc p => acc + p.2.weight) 0 % 2 ^ 32 = 0
  · rw [if_pos htot] at h; cases h
  · rw [if_neg htot] at h
    cases hp : wrPick (lcgNext st.random_seed %
        (ts.foldl (fun acc p => acc + p.2.weight) 0 % 2 ^ 32)) ts with
    | some id' =>
        rw [hp] at h
        cases h
        exact wrPick_mem id _ ts hp
    | none =>
        rw [hp] at h
        cases hg : ts.get? 0 with
        | none => rw [hg] at h; cases h
        | some p =>
            rw [hg] at h
            cases h
            exact List.mem_map.mpr ⟨p, List.get?_mem hg, rfl⟩

lemma select_least_connections_isSome (ts : List (String × LoadBalanceTarget))
    (h : ts ≠ []) : (select_least_connections ts).isSome := by
  unfold select_least_connections minByNatKey
  cases ts with
  | nil => exact absurd rfl h
  | cons a rest => rfl

lemma select_least_connections_mem (ts : List (String × LoadBalanceTarget))
    (id : String) (h : select_least_connections ts = some id) :
    id ∈ ts.map Prod.fst := by
  unfold select_least_connections at h
  cases hm : minByNatKey (fun p => p.2.active_connections) ts with
  | none => rw [hm] at h; cases h
  | some p =>
      rw [hm] at h
      cases h
      exact List.mem_map.mpr ⟨p, minByNatKey_mem _ ts p hm, rfl⟩

lemma select_least_load_isSome (ts : List (String × LoadBalanceTarget))
    (h : ts ≠ []) : (select_least_load ts).isSome := by
  unfold select_least_load minByRatKey
  cases ts with
  | nil => exact absurd rfl h
  | cons a rest => rfl

lemma select_least_load_mem (ts : List (String × LoadBalanceTarget))
    (id : String) (h : select_least_load ts = some id) :
    id ∈ ts.map Prod.fst := by
  unfold select_least_load at h
  cases hm : minByRatKey (fun p => p.2.current_load) ts with
  | none => rw [hm] at h; cases h
  | some p =>
      rw [hm] at h
      cases h
      exact List.mem_map.mpr ⟨p, minByRatKey_mem _ ts p hm, rfl⟩

lemma select_fastest_response_isSome (ts : List (String × LoadBalanceTarget))
    (h : ts ≠ []) : (select_fastest_response ts).isSome := by
  unfold select_fastest_response minByRatKey
  cases ts with
  | nil => exact absurd rfl h
  | cons a rest => rfl

lemma select_fastest_response_mem (ts : List (String × LoadBalanceTarget))
    (id : String) (h : select_fastest_response ts = some id) :
    id ∈ ts.map Prod.fst := by
  unfold select_fastest_response at h
  cases hm : minByRatKey (fun p => p.2.avg_response_time_ms) ts with
  | none => rw [hm] at h; cases h
  | some p =>
      rw [hm] at h
      cases h
      exact List.mem_map.mpr ⟨p, minByRatKey_mem _ ts p hm, rfl⟩

lemma wlcCmp_isSome (a b : LoadBalanceTarget) (ha : 0 < a.weight)
    (hb : 0 < b.weight) : (wlcCmp a b).isSome := by
  have ha' : a.weight ≠ 0 := Nat.pos_iff_ne_zero.mp ha
  have hb' : b.weight ≠ 0 := Nat.pos_iff_ne_zero.mp hb
  simp [wlcCmp, ha', hb']

lemma wlcGo_isSome : ∀ (rest : List (String × LoadBalanceTarget))
    (acc : String × LoadBalanceTarget), 0 < acc.2.weight →
    (∀ y ∈ rest, 0 < y.2.weight) → (wlcGo acc rest).isSome := by
  intro rest
  induction rest with
  | nil => intro acc _ _; rfl
  | cons y rest ih =>
      intro acc hacc hrest
      unfold wlcGo
      have hy : 0 < y.2.weight := hrest y (List.mem_cons_self y rest)
      obtain ⟨o, ho⟩ := Option.isSome_iff_exists.mp (wlcCmp_isSome acc.2 y.2 hacc hy)
      rw [ho]
      have hrest' : ∀ z ∈ rest, 0 < z.2.weight :=
        fun z hz => hrest z (List.mem_cons_of_mem _ hz)
      cases o with
      | gt => exact ih y hy hrest'
      | lt => exact ih acc hacc hrest'
      | eq => exact ih acc hacc hrest'

lemma wlcGo_mem (id : String) : ∀ (rest : List (String × LoadBalanceTarget))
    (acc : String × LoadBalanceTarget), wlcGo acc rest = some id →
    id = acc.1 ∨ id ∈ rest.map Prod.fst := by
  intro rest
  induction rest with
  | nil =>
      intro acc h
      cases h
      exact Or.inl rfl
  | cons y rest ih =>
      intro acc h
      unfold wlcGo at h
      cases ho : wlcCmp acc.2 y.2 with
      | none => rw [ho] at h; cases h
      | some o =>
          rw [ho] at h
          cases o with
          | gt =>
              rcases ih y h with h' | h'
              · exact Or.inr (by simp [h'])
              · exact Or.inr (List.mem_cons_of_mem _ h')
          | lt =>
              rcases ih acc h with h' | h'
              · exact Or.inl h'
              · exact Or.inr (List.mem_cons_of_mem _ h')
          | eq =>
              rcases ih acc h with h' | h'
              · exact Or.inl h'
              · exact Or.inr (List.mem_cons_of_mem _ h')

lemma select_weighted_least_connections_isSome
    (ts : List (String × LoadBalanceTarget)) (h : ts ≠ [])
    (hpos : ∀ p ∈ ts, 0 < p.2.weight) :
    (select_weighted_least_connections ts).isSome := by
  cases ts with
  | nil => exact absurd rfl h
  | cons a rest =>
      exact wlcGo_isSome rest a (hpos a (List.mem_cons_self a rest))
        (fun y hy => hpos y (List.mem_cons_of_mem _ hy))

lemma select_weighted_least_connections_mem
    (ts : List (String × LoadBalanceTarget)) (id : String)
    (h : select_weighted_least_connections ts = some id) :
    id ∈ ts.map Prod.fst := by
  cases ts with
  | nil => cases h
  | cons a rest =>
      rcases wlcGo_mem id rest a h with h' | h'
      · simp [h']
      · exact List.mem_cons_of_mem _ h'

lemma select_consistent_hash_isSome (ts : List (String × LoadBalanceTarget))
    (st : LoadBalancerState) (key : Option String) (h : ts ≠ []) :
    (select_consistent_hash ts st key).isSome := by
  unfold select_consistent_hash
  cases hr : ringFind (hash_key (key.getD "default")) st.consistent_hash_ring with
  | some id => rfl
  | none =>
      cases hring : st.consistent_hash_ring with
      | cons p rest => rfl
      | nil =>
          cases ts with
          | nil => exact absurd rfl h
          | cons a rest => rfl

lemma memIte {α : Type} {c : Prop} [Decidable c] {a b : α} {S : List α}
    (ha : a ∈ S) (hb : b ∈ S) : (if c then a else b) ∈ S := by
  split
  · exact ha
  · exact hb

lemma mem_cons_middle {α : Type} {x a b : α} {l : List α} (h : x ∈ a :: l) :
    x ∈ a :: b :: l := by
  rcases List.mem_cons.mp h with rfl | h'
  · exact List.mem_cons_self _ _
  · exact List.mem_cons_of_mem _ (List.mem_cons_of_mem _ h')

lemma adaptiveGo_mem (weights : List (String × ℚ)) :
    ∀ (ts : List (String × LoadBalanceTarget)) (best : String)
      (bs : Option ℚ), adaptiveGo weights best bs ts ∈ best :: ts.map Prod.fst := by
  intro ts
  induction ts with
  | nil => intro best bs; exact List.mem_cons_self _ _
  | cons p rest ih =>
      intro best bs
      cases bs with
      | none =>
          exact List.mem_cons_of_mem best (ih p.1 (some (adaptiveScore weights p)))
      | some b =>
          show (if b < adaptiveScore weights p then
                  adaptiveGo weights p.1 (some (adaptiveScore weights p)) rest
                else adaptiveGo weights best (some b) rest) ∈ _
          exact memIte
            (List.mem_cons_of_mem best (ih p.1 (some (adaptiveScore weights p))))
            (mem_cons_middle (ih best (some b)))

lemma select_adaptive_isSome (ts : List (String × LoadBalanceTarget))
    (st : LoadBalancerState) (h : ts ≠ []) :
    (select_adaptive ts st).isSome := by
  cases ts with
  | nil => exact absurd rfl h
  | cons a rest => rfl

lemma select_adaptive_mem (ts : List (String × LoadBalanceTarget))
    (st : LoadBalancerState) (id : String)
    (h : select_adaptive ts st = some id) : id ∈ ts.map Prod.fst := by
  cases ts with
  | nil => cases h
  | cons a rest =>
      unfold select_adaptive at h
      cases h
      have hm := adaptiveGo_mem st.adaptive_weights (a :: rest) a.1 none
      rcases List.mem_cons.mp hm with h' | h'
      · rw [h']
        exact List.mem_map.mpr ⟨a, List.mem_cons_self a rest, rfl⟩
      · exact h'

/-- `select_weighted_round_robin` always returns `Some` (no panic in its
body; overflow wraps). -/
lemma select_weighted_round_robin_isSome
    (ts : List (String × LoadBalanceTarget)) (st : LoadBalancerState) :
    ((select_weighted_round_robin ts st).1).isSome := rfl

/-- With every target weight positive and their sum below `2 ^ 32`, the
strategy dispatch of `select_target` never reaches a panic on a nonempty
slice. -/
lemma dispatch_strategy_isSome (cfg : LoadBalancerConfig)
    (ts : List (String × LoadBalanceTarget)) (st : LoadBalancerState)
    (request_key : Option String) (h : ts ≠ [])
    (hpos : ∀ p ∈ ts, 0 < p.2.weight)
    (hsum : (ts.map (fun p => p.2.weight)).sum < 2 ^ 32) :
    ((dispatch_strategy cfg ts st request_key).1).isSome := by
  unfold dispatch_strategy
  cases cfg.strategy with
  | RoundRobin => exact select_round_robin_isSome ts st h
  | WeightedRoundRobin => exact select_weighted_round_robin_isSome ts st
  | Random => exact select_random_isSome ts st h
  | WeightedRandom => exact select_weighted_random_isSome ts st h hpos hsum
  | LeastConnections => exact select_least_connections_isSome ts h
  | WeightedLeastConnections =>
      exact select_weighted_least_connections_isSome ts h hpos
  | LeastLoad => exact select_least_load_isSome ts h
  | FastestResponse => exact select_fastest_response_isSome ts h
  | ConsistentHash => exact select_consistent_hash_isSome ts st request_key h
  | Adaptive => exact select_adaptive_isSome ts st h

/-! ## Weighted-round-robin bookkeeping lemmas (for C5) -/

lemma lookupA_append_of_isSome {α : Type} (m l : List (String × α)) (k : String)
    (h : (lookupA m k).isSome) : lookupA (m ++ l) k = lookupA m k := by
  induction m with
  | nil => simp [lookupA] at h
  | cons p rest ih =>
      by_cases hk : p.1 = k
      · simp [lookupA, hk]
      · simp only [lookupA, if_neg hk] at h ⊢
        exact ih h

lemma lookupA_append_right {α : Type} (m l : List (String × α)) (k : String)
    (h : lookupA m k = none) : lookupA (m ++ l) k = lookupA l k := by
  induction m with
  | nil => rfl
  | cons p rest ih =>
      by_cases hk : p.1 = k
      · simp [lookupA, hk] at h
      · simp only [lookupA, if_neg hk] at h ⊢
        exact ih h

lemma wrrInit_isSome_mono : ∀ (ts : List (String × LoadBalanceTarget))
    (m : List (String × Int)) (k : String), (lookupA m k).isSome →
    (lookupA (wrrInit m ts) k).isSome := by
  intro ts
  induction ts with
  | nil => intro m k h; exact h
  | cons p rest ih =>
      intro m k h
      unfold wrrInit
      by_cases hs : (lookupA m p.1).isSome = true
      · rw [if_pos hs]
        exact ih m k h
      · rw [if_neg hs]
        apply ih
        rw [lookupA_append_of_isSome m _ k h]
        exact h

lemma wrrInit_covers : ∀ (ts : List (String × LoadBalanceTarget))
    (m : List (String × Int)) (p : String × LoadBalanceTarget), p ∈ ts →
    (lookupA (wrrInit m ts) p.1).isSome := by
  intro ts
  induction ts with
  | nil => intro m p h; cases h
  | cons q rest ih =>
      intro m p hp
      unfold wrrInit
      rcases List.mem_cons.mp hp with rfl | hmem
      · by_cases hs : (lookupA m p.1).isSome = true
        · rw [if_pos hs]
          exact wrrInit_isSome_mono rest m p.1 hs
        · rw [if_neg hs]
          apply wrrInit_isSome_mono
          rw [lookupA_append_right m _ p.1
            (Option.not_isSome_iff_eq_none.mp (by simpa using hs))]
          simp [lookupA]
      · by_cases hs : (lookupA m q.1).isSome = true
        · rw [if_pos hs]
          exact ih m p hmem
        · rw [if_neg hs]
          exact ih _ p hmem

lemma wrrInit_values : ∀ (ts : List (String × LoadBalanceTarget))
    (m : List (String × Int)) (q : String × Int), q ∈ wrrInit m ts →
    q ∈ m ∨ ∃ p ∈ ts, q = (p.1, i32wrap (-(i32OfU32 p.2.weight))) := by
  intro ts
  induction ts with
  | nil => intro m q h; exact Or.inl h
  | cons p rest ih =>
      intro m q hq
      unfold wrrInit at hq
      by_cases hs : (lookupA m p.1).isSome = true
      · rw [if_pos hs] at hq
        rcases ih m q hq with h | ⟨p', hp', hq'⟩
        · exact Or.inl h
        · exact Or.inr ⟨p', List.mem_cons_of_mem _ hp', hq'⟩
      · rw [if_neg hs] at hq
        rcases ih _ q hq with h | ⟨p', hp', hq'⟩
        · rcases List.mem_append.mp h with h' | h'
          · exact Or.inl h'
          · rcases List.mem_singleton.mp h' with rfl
            exact Or.inr ⟨p, List.mem_cons_self p rest, rfl⟩
        · exact Or.inr ⟨p', List.mem_cons_of_mem _ hp', hq'⟩

lemma i32wrap_eq_self {x : Int} (h1 : -(2 ^ 31) ≤ x) (h2 : x < 2 ^ 31) :
    i32wrap x = x := by
  unfold i32wrap
  have e1 : (2 : Int) ^ 31 = 2147483648 := by norm_num
  have e2 : (2 : Int) ^ 32 = 4294967296 := by norm_num
  rw [e1, e2]
  rw [e1] at h1 h2
  omega

lemma i32OfU32_small {n : Nat} (h : n < 2 ^ 31) : i32OfU32 n = (n : Int) := by
  unfold i32OfU32
  rw [i32wrap_eq_self] <;> omega

lemma wrrInit_bounds (ts : List (String × LoadBalanceTarget))
    (m : List (String × Int))
    (hW : ∀ p ∈ ts, p.2.weight ≤ 2 ^ 20)
    (hS : ∀ q ∈ m, -(2 ^ 30) ≤ q.2 ∧ q.2 ≤ 2 ^ 30) :
    ∀ q ∈ wrrInit m ts, -(2 ^ 30) ≤ q.2 ∧ q.2 ≤ 2 ^ 30 := by
  intro q hq
  rcases wrrInit_values ts m q hq with h | ⟨p, hp, rfl⟩
  · exact hS q h
  · have hw := hW p hp
    have hof : i32OfU32 p.2.weight = (p.2.weight : Int) :=
      i32OfU32_small (by omega)
    rw [hof]
    dsimp only
    rw [i32wrap_eq_self (by omega) (by omega)]
    omega

lemma wrrGo_selected : ∀ (ts : List (String × LoadBalanceTarget))
    (m : List (String × Int)) (total maxW : Int) (sel : String),
    (wrrGo m total maxW sel ts).2.2.2 ∈ sel :: ts.map Prod.fst := by
  intro ts
  induction ts with
  | nil => intro m total maxW sel; exact List.mem_cons_self _ _
  | cons p rest ih =>
      intro m total maxW sel
      simp only [wrrGo]
      by_cases hlt : maxW < i32wrap ((lookupA m p.1).getD 0 + i32OfU32 p.2.weight)
      · rw [if_pos hlt]
        exact List.mem_cons_of_mem sel (ih _ _ _ p.1)
      · rw [if_neg hlt]
        exact mem_cons_middle (ih _ _ _ sel)

lemma select_weighted_round_robin_mem
    (ts : List (String × LoadBalanceTarget)) (st : LoadBalancerState)
    (id : String) (hne : ts ≠ [])
    (hW : ∀ p ∈ ts, p.2.weight ≤ 2 ^ 20)
    (hS : ∀ q ∈ st.weighted_round_robin_weights,
      -(2 ^ 30) ≤ q.2 ∧ q.2 ≤ 2 ^ 30)
    (h : (select_weighted_round_robin ts st).1 = some id) :
    id ∈ ts.map Prod.fst := by
  cases ts with
  | nil => exact absurd rfl hne
  | cons p rest =>
      unfold select_weighted_round_robin at h
      have hcov : (lookupA (wrrInit st.weighted_round_robin_weights (p :: rest))
          p.1).isSome :=
        wrrInit_covers (p :: rest) st.weighted_round_robin_weights p
          (List.mem_cons_self p rest)
      obtain ⟨v, hv⟩ := Option.isSome_iff_exists.mp hcov
      have hvb := wrrInit_bounds (p :: rest) st.weighted_round_robin_weights hW
        hS (p.1, v) (lookupA_mem hv)
      dsimp only at hvb
      have hwp := hW p (List.mem_cons_self p rest)
      have hg : (lookupA (wrrInit st.weighted_round_robin_weights (p :: rest))
          p.1).getD 0 = v := by rw [hv]; rfl
      have hof : i32OfU32 p.2.weight = (p.2.weight : Int) :=
        i32OfU32_small (by omega)
      have himp : i32Min <
          i32wrap ((lookupA (wrrInit st.weighted_round_robin_weights (p :: rest))
            p.1).getD 0 + i32OfU32 p.2.weight) := by
        rw [hg, hof, i32wrap_eq_self (by omega) (by omega)]
        unfold i32Min
        omega
      cases h
      show (wrrGo (wrrInit st.weighted_round_robin_weights (p :: rest)) 0 i32Min
          "" (p :: rest)).2.2.2 ∈ List.map Prod.fst (p :: rest)
      simp only [wrrGo]
      rw [if_pos himp]
      exact wrrGo_selected rest _ _ _ p.1

lemma dispatch_strategy_mem (cfg : LoadBalancerConfig)
    (ts : List (String × LoadBalanceTarget)) (st : LoadBalancerState)
    (request_key : Option String) (id : String)
    (hstrat : cfg.strategy ≠ .ConsistentHash)
    (hne : ts ≠ [])
    (hW : ∀ p ∈ ts, p.2.weight ≤ 2 ^ 20)
    (hS : ∀ q ∈ st.weighted_round_robin_weights,
      -(2 ^ 30) ≤ q.2 ∧ q.2 ≤ 2 ^ 30)
    (h : (dispatch_strategy cfg ts st request_key).1 = some id) :
    id ∈ ts.map Prod.fst := by
  unfold dispatch_strategy at h
  cases hst : cfg.strategy with
  | RoundRobin => rw [hst] at h; exact select_round_robin_mem ts st id h
  | WeightedRoundRobin =>
      rw [hst] at h
      exact select_weighted_round_robin_mem ts st id hne hW hS h
  | Random => rw [hst] at h; exact select_random_mem ts st id h
  | WeightedRandom => rw [hst] at h; exact select_weighted_random_mem ts st id h
  | LeastConnections => rw [hst] at h; exact select_least_connections_mem ts id h
  | WeightedLeastConnections =>
      rw [hst] at h
      exact select_weighted_least_connections_mem ts id h
  | LeastLoad => rw [hst] at h; exact select_least_load_mem ts id h
  | FastestResponse => rw [hst] at h; exact select_fastest_response_mem ts id h
  | ConsistentHash => exact absurd hst hstrat
  | Adaptive => rw [hst] at h; exact select_adaptive_mem ts st id h

/-! ## C5 -/

/-- C5: the claim fails on the code.  Under `ConsistentHash` the ring is
built from every registered target, eligible or not; with the ring built by
`update_consistent_hash_ring` over `t1` (eligible) and `t2` (healthy but
`Open`), the default request key hashes onto one of `t2`'s virtual nodes
and `select_target` returns `t2`, whose breaker is not `Closed`. -/
theorem c5_counterexample :
    ∃ r, (select_target c5cfg c5targets c5state none).1 = .ok r ∧
      r.target_id = "t2" ∧
      lookupA c5targets "t2" = some c5t2 ∧
      c5t2.circuit_breaker_state ≠ CircuitBreakerState.Closed := by
  refine ⟨_, by with_unfolding_all rfl, by with_unfolding_all rfl,
    by with_unfolding_all rfl, by decide⟩

/-- C5 (amended): under every strategy other than `ConsistentHash`, an
`Ok` result of `select_target` names a registered target that is healthy
with a `Closed` breaker (stated for sane magnitudes: target weights at most
`2 ^ 20` and stored smooth-round-robin scores within `±2 ^ 30`, so that the
i32 bookkeeping of `WeightedRoundRobin` cannot wrap).  Under
`ConsistentHash` the ring also contains ineligible targets and the
guarantee fails. -/
theorem c5_selected_target_is_eligible (cfg : LoadBalancerConfig)
    (targets : List (String × LoadBalanceTarget)) (st : LoadBalancerState)
    (request_key : Option String) (r : LoadBalanceResult)
    (hstrat : cfg.strategy ≠ .ConsistentHash)
    (hnodup : (targets.map Prod.fst).Nodup)
    (hW : ∀ p ∈ targets, p.2.weight ≤ 2 ^ 20)
    (hS : ∀ q ∈ st.weighted_round_robin_weights,
      -(2 ^ 30) ≤ q.2 ∧ q.2 ≤ 2 ^ 30)
    (h : (select_target cfg targets st request_key).1 = .ok r) :
    ∃ t, lookupA targets r.target_id = some t ∧ t.is_healthy = true ∧
      t.circuit_breaker_state = .Closed := by
  unfold select_target at h
  by_cases he : targets.isEmpty = true
  · rw [if_pos he] at h; cases h
  · rw [if_neg he] at h
    by_cases hf : (targets.filter (fun p => eligible p.2)).isEmpty = true
    · rw [if_pos hf] at h; cases h
    · rw [if_neg hf] at h
      rcases hpair : dispatch_strategy cfg
          (targets.filter (fun p => eligible p.2)) st request_key with ⟨sel, st1⟩
      rw [hpair] at h
      cases sel with
      | none => simp at h
      | some id =>
          cases h
          have hdisp : (dispatch_strategy cfg
              (targets.filter (fun p => eligible p.2)) st request_key).1 =
              some id := by rw [hpair]
          have hmem : id ∈ (targets.filter (fun p => eligible p.2)).map
              Prod.fst :=
            dispatch_strategy_mem cfg _ st request_key id hstrat
              (by simpa [List.isEmpty_iff] using hf)
              (fun p hp => hW p (List.mem_filter.mp hp).1) hS hdisp
          obtain ⟨p, hpfilter, hpfst⟩ := List.mem_map.mp hmem
          have hpt := List.mem_filter.mp hpfilter
          have heligible := hpt.2
          rw [eligible, Bool.and_eq_true] at heligible
          refine ⟨p.2, ?_, heligible.1, of_decide_eq_true heligible.2⟩
          show lookupA targets id = some p.2
          rw [← hpfst]
          exact mem_lookupA_of_nodup hnodup hpt.1

/-- C5 witness: a single eligible target under the default `RoundRobin`
strategy. -/
theorem c5_witness :
    ∃ t, lookupA [("t1", mkTarget "t1" 100 (1 / 2) 1 true .Closed)] "t1" =
        some t ∧ t.is_healthy = true ∧
      t.circuit_breaker_state = .Closed :=
  c5_selected_target_is_eligible LoadBalancerConfig.default
    [("t1", mkTarget "t1" 100 (1 / 2) 1 true .Closed)]
    LoadBalancerState.default none
    { target_id := "t1"
      reason := "Selected by RoundRobin strategy"
      load_snapshot := [("t1", 1 / 2)]
      selection_time_us := 0 }
    (by decide) (by decide) (by decide) (by decide)
    (by with_unfolding_all rfl)

/-! ## C7 -/

/-- C7: the claim fails on the code.  A single eligible target of weight
zero under the `WeightedRandom` strategy drives `select_target` into
`random_weight % 0`, a Rust panic. -/
theorem c7_counterexample :
    (select_target c7cfg [("t1", c7t)] LoadBalancerState.default none).1 =
      .panicked := by
  with_unfolding_all rfl

/-- C7 (amended): on a nonempty target map with no eligible target,
`select_target` returns the `No healthy targets available` error (an empty
map yields `No targets available` instead); and `select_target` does not
panic provided every target's weight is positive and the total weight fits
in a `u32` — with a zero total weight, `WeightedRandom` divides by zero. -/
theorem c7_no_healthy_error_and_no_panic_for_positive_weights
    (cfg : LoadBalancerConfig) (targets : List (String × LoadBalanceTarget))
    (st : LoadBalancerState) (request_key : Option String) :
    (targets ≠ [] → targets.filter (fun p => eligible p.2) = [] →
      (select_target cfg targets st request_key).1 =
        .err "No healthy targets available") ∧
    ((∀ p ∈ targets, 0 < p.2.weight) →
      (targets.map (fun p => p.2.weight)).sum < 2 ^ 32 →
      (select_target cfg targets st request_key).1 ≠ .panicked) := by
  have hsnd : ∀ (_ : targets ≠ [])
      (_ : targets.filter (fun p => eligible p.2) = []),
      (select_target cfg targets st request_key).1 =
        .err "No healthy targets available" := by
    intro hne hfe
    unfold select_target
    rw [if_neg (by simpa [List.isEmpty_iff] using hne)]
    rw [hfe]
    rfl
  refine ⟨hsnd, ?_⟩
  intro hpos hsum
  by_cases hne : targets = []
  · subst hne
    intro hc
    rw [show (select_target cfg [] st request_key).1 =
        SelectOutcome.err "No targets available" from rfl] at hc
    cases hc
  · by_cases hfe : targets.filter (fun p => eligible p.2) = []
    · intro hc
      rw [hsnd hne hfe] at hc
      cases hc
    · have hHpos : ∀ p ∈ targets.filter (fun p => eligible p.2),
          0 < p.2.weight := fun p hp => hpos p (List.mem_filter.mp hp).1
      have hHsum : ((targets.filter (fun p => eligible p.2)).map
          (fun p => p.2.weight)).sum < 2 ^ 32 :=
        lt_of_le_of_lt
          (((List.filter_sublist targets).map _).sum_le_sum (by simp)) hsum
      have hs := dispatch_strategy_isSome cfg
        (targets.filter (fun p => eligible p.2)) st request_key hfe hHpos hHsum
      intro hc
      unfold select_target at hc
      rw [if_neg (by simpa [List.isEmpty_iff] using hne)] at hc
      rw [if_neg (by simpa [List.isEmpty_iff] using hfe)] at hc
      rcases hpair : dispatch_strategy cfg
          (targets.filter (fun p => eligible p.2)) st request_key with ⟨sel, st1⟩
      rw [hpair] at hc hs
      cases sel with
      | none => exact absurd hs (by simp)
      | some id => cases hc

/-- C7 witness: the error arm on one permanently-unhealthy target, and the
no-panic conclusion on one eligible weighted target under
`WeightedRandom`. -/
theorem c7_witness :
    (select_target c7cfg [("t1", mkTarget "t1" 100 (1 / 2) 1 false .Closed)]
        LoadBalancerState.default none).1 =
      .err "No healthy targets available" ∧
    (select_target c7cfg [("t1", mkTarget "t1" 100 (1 / 2) 1 true .Closed)]
        LoadBalancerState.default none).1 ≠ .panicked :=
  ⟨(c7_no_healthy_error_and_no_panic_for_positive_weights c7cfg
      [("t1", mkTarget "t1" 100 (1 / 2) 1 false .Closed)]
      LoadBalancerState.default none).1 (by decide)
      (by with_unfolding_all rfl),
   (c7_no_healthy_error_and_no_panic_for_positive_weights c7cfg
      [("t1", mkTarget "t1" 100 (1 / 2) 1 true .Closed)]
      LoadBalancerState.default none).2
      (by decide) (by decide)⟩

end Flux
